import Mathlib

/-!
# Verification of the srq-hpn ingestion and deduplication engine

Shallow embedding of the event-ingestion pipeline of the srq-hpn repository
(`apps/api/app/services/ingest_upsert.py`, `ingest_source_items.py`,
`ingest_bigtop.py`, `venue_resolver.py`, `app/ingestion/ical.py`, and the
row shapes of `app/models/event.py` / `event_occurrence.py`), together with
theorems settling the specification's claims about it.

Modelling conventions:
* Python strings are Lean `String`s; the ASCII fragment of Python's
  `str.lower` / `str.strip` / `re` character classes is modelled exactly.
* Python `datetime` values are modelled as an epoch instant (`Int`) plus a
  timezone-awareness flag (`tzinfo is None` ⟺ `aware = false`).
* The relational store is a record of row lists.  A `flush` of a pending
  insert checks the storage uniqueness constraints (the partial unique index
  `uq_events_source_external_id`, the unique constraint
  `uq_event_occurrences_event_start` from migration `cd8a08a488bf`, the
  unique `events.slug` column, and primary keys) and raises `IntegrityError`
  on a conflict; `rollback` discards the pending insert.
* A concurrent writer is modelled by rows it commits at the two flush points
  of `upsert_event_and_occurrence` (and by standalone constraint-checked
  insert steps between calls); the writer's own inserts go through the same
  constraint check, because its transactions are subject to the same indexes.
* Python floats in the venue resolver are modelled as rationals; the
  `SequenceMatcher.ratio` similarity (standard library, not repository code)
  is an explicit function parameter.
-/

namespace SrqHpn

/-- Characters Python's `str.strip()` / `str.split()` / regex `\s` treat as
whitespace (ASCII fragment). -/
def pyIsWS (c : Char) : Bool :=
  c = ' ' || c = '\t' || c = '\n' || c = '\r' || c = '\x0b' || c = '\x0c'

/-- `str.strip()` on a character list: drop whitespace from both ends. -/
def pyStripList (l : List Char) : List Char :=
  ((l.dropWhile pyIsWS).reverse.dropWhile pyIsWS).reverse

/-- Python `str.strip()`. -/
def pyStrip (s : String) : String :=
  ⟨pyStripList s.toList⟩

/-- ASCII lowercasing of one character. -/
def pyToLower (c : Char) : Char :=
  if 'A' ≤ c ∧ c ≤ 'Z' then Char.ofNat (c.toNat + 32) else c

/-- Python `str.lower()` (ASCII fragment). -/
def pyLower (s : String) : String :=
  ⟨s.toList.map pyToLower⟩

/-- Drop a given character from both ends, Python `str.strip(ch)`. -/
def pyStripCharList (r : Char) (l : List Char) : List Char :=
  ((l.dropWhile (· = r)).reverse.dropWhile (· = r)).reverse

/-- Drop a given character from the right end, Python `str.rstrip(ch)`. -/
def pyRStripCharList (r : Char) (l : List Char) : List Char :=
  (l.reverse.dropWhile (· = r)).reverse

/-- Worker for `subRuns`: `inRun` records whether the previous character
belonged to a replaced run (whose single replacement was already
emitted). -/
def subRunsGo (keep : Char → Bool) (r : Char) : Bool → List Char → List Char
  | _, [] => []
  | inRun, c :: cs =>
    if keep c then c :: subRunsGo keep r false cs
    else if inRun then subRunsGo keep r true cs
    else r :: subRunsGo keep r true cs

/-- Replace every maximal run of characters *not* satisfying `keep` by the
single character `r` — Python `re.sub("[^…]+", r, s)`. -/
def subRuns (keep : Char → Bool) (r : Char) (l : List Char) : List Char :=
  subRunsGo keep r false l

/-- Worker for `splitRuns`: `acc` is the reversed current run. -/
def splitRunsGo (keep : Char → Bool) : List Char → List Char → List (List Char)
  | acc, [] => if acc = [] then [] else [acc.reverse]
  | acc, c :: cs =>
    if keep c then splitRunsGo keep (c :: acc) cs
    else if acc = [] then splitRunsGo keep [] cs
    else acc.reverse :: splitRunsGo keep [] cs

/-- Split into the maximal runs of characters satisfying `keep`
(used for Python `str.split()` and for regex `\w+` tokenisation). -/
def splitRuns (keep : Char → Bool) (l : List Char) : List (List Char) :=
  splitRunsGo keep [] l

/-- Python `str.split()` with no argument: whitespace-delimited words,
empties dropped. -/
def pySplitWS (s : String) : List String :=
  (splitRuns (fun c => !pyIsWS c) s.toList).map fun l => ⟨l⟩

/-- `[a-z0-9]` — the character class kept by the slug / title-key regexes. -/
def isLowerAlnum (c : Char) : Bool :=
  ('a' ≤ c && c ≤ 'z') || ('0' ≤ c && c ≤ '9')

/-- Regex `\w` (ASCII fragment): letters, digits, underscore. -/
def isWordChar (c : Char) : Bool :=
  c.isAlphanum || c = '_'

/-- `slugify` from `app/services/ingest_upsert.py`:
strip, lower, collapse `[^a-z0-9]+` runs to `-`, strip `-`. -/
def slugify (value : String) : String :=
  let v := pyLower (pyStrip value)
  ⟨pyStripCharList '-' (subRuns isLowerAlnum '-' v.toList)⟩

/-- `_truncate` from `ingest_upsert.py`: cut to `maxLen` characters and
right-strip dashes (Python slicing is by characters). -/
def truncateSlug (value : String) (maxLen : Nat) : String :=
  if value.toList.length ≤ maxLen then value
  else ⟨pyRStripCharList '-' (value.toList.take maxLen)⟩

/-- `_build_event_slug` from `ingest_upsert.py`. -/
def build_event_slug (title : String) (source_id : Nat) (external_id : String) :
    String :=
  let base0 := slugify title
  let base := if base0 = "" then "event" else base0
  let frag0 : String := ⟨external_id.toList.takeWhile (· ≠ '@')⟩
  let frag1 := slugify frag0
  let frag2 := if frag1 = "" then "ext" else frag1
  let frag := truncateSlug frag2 24
  truncateSlug (base ++ "-" ++ toString source_id ++ "-" ++ frag) 120

/-- `_normalize_title_key` from `ingest_upsert.py`:
`re.sub(r"[^a-z0-9]+", " ", title.lower()).strip()`. -/
def normalize_title_key (title : String) : String :=
  pyStrip ⟨subRuns isLowerAlnum ' ' (pyLower title).toList⟩

/-- The SQL expression `regexp_replace(lower(title), '[^a-z0-9]+', ' ', 'g')`
used by `_get_event_by_semantic_key` (note: unlike `_normalize_title_key`
there is no trailing `strip`). -/
def sql_title_key (title : String) : String :=
  ⟨subRuns isLowerAlnum ' ' (pyLower title).toList⟩

/-- `normalize_text` from `app/services/ingest_bigtop.py`:
`" ".join(value.strip().lower().split())` (with `None`/falsy ↦ `""`). -/
def normalize_text (value : Option String) : String :=
  match value with
  | none => ""
  | some v =>
    if v = "" then ""
    else String.intercalate " " (pySplitWS (pyLower (pyStrip v)))

/-- `normalize_location` from `app/services/venue_resolver.py`:
strip, lower, `[^\w\s]` ↦ space, collapse whitespace, strip. -/
def normalize_location (text : String) : String :=
  let t1 := pyLower (pyStrip text)
  let t2 := t1.toList.map fun c =>
    if isWordChar c || pyIsWS c then c else ' '
  pyStrip ⟨subRuns (fun c => !pyIsWS c) ' ' t2⟩

/-- `_normalize_location` from `ingest_upsert.py`: newlines to spaces and
whitespace collapsed (`" ".join(location.replace(...).split())`). -/
def normalize_location_ws (location : String) : String :=
  String.intercalate " " (pySplitWS location)

/-- Maximal `\w+` tokens of a string (for the `\b`-anchored regex searches
`NUMBER_RE` and `STREET_SUFFIX_RE`). -/
def word_tokens (s : String) : List String :=
  (splitRuns isWordChar s.toList).map fun l => ⟨l⟩

/-- `NUMBER_RE = \b\d{1,6}\b` searched in a segment: some maximal word token
is all digits with length between 1 and 6. -/
def has_number (seg : String) : Bool :=
  (word_tokens seg).any fun t =>
    t.toList ≠ [] && t.toList.all Char.isDigit && t.toList.length ≤ 6

/-- The street-suffix word list of `STREET_SUFFIX_RE` (lowercased; the regex
is case-insensitive and `\b`-anchored). -/
def street_suffix_words : List String :=
  ["st", "street", "ave", "avenue", "blvd", "boulevard", "rd", "road",
   "dr", "drive", "ln", "lane", "ct", "court", "cir", "circle",
   "hwy", "highway", "pkwy", "parkway", "way", "pl", "place", "ter",
   "terrace"]

/-- `STREET_SUFFIX_RE` searched in a segment. -/
def has_street_suffix (seg : String) : Bool :=
  (word_tokens seg).any fun t => street_suffix_words.contains (pyLower t)

/-- Split a character list at every comma, keeping empty segments
(Python `str.split(",")`). -/
def split_on_comma : List Char → List (List Char)
  | [] => [[]]
  | c :: cs =>
    if c = ',' then [] :: split_on_comma cs
    else
      match split_on_comma cs with
      | [] => [[c]]
      | h :: t => (c :: h) :: t

/-- `COUNTRY_SEGMENTS` from `ingest_upsert.py`. -/
def country_segments : List String :=
  ["united states", "usa", "us"]

/-- `_extract_address` from `ingest_upsert.py`. -/
def extract_address (location : Option String) : Option String :=
  match location with
  | none => none
  | some loc =>
    if loc = "" then none
    else
      let normalized := normalize_location_ws loc
      let segments :=
        (((split_on_comma normalized.toList).map fun l =>
          pyStrip ⟨l⟩).filter (· ≠ ""))
      let rest := segments.dropWhile fun seg =>
        !(has_number seg && has_street_suffix seg)
      if rest = [] then none
      else
        let parts := rest.takeWhile fun seg =>
          !(country_segments.contains (pyLower seg))
        if parts = [] then none
        else some (String.intercalate ", " parts)

/-! ## Data model (`app/models/event.py`, `event_occurrence.py`, `venue.py`,
`venue_alias.py`, `source.py`) -/

/-- A Python `datetime`: instant (seconds, arbitrary epoch) plus whether it
is timezone-aware (`tzinfo is not None`).  All aware values are taken in
UTC, which is what the pipeline stores. -/
structure PyDateTime where
  epoch : Int
  aware : Bool
deriving DecidableEq, Repr

/-- One row of the `events` table. -/
structure EventRow where
  id : Nat
  venue_id : Option Nat
  source_id : Nat
  title : String
  description : Option String
  slug : String
  is_free : Bool
  price_text : Option String
  status : String
  hidden : Bool
  external_id : Option String
  external_url : Option String
  last_seen_at : Option PyDateTime
deriving DecidableEq, Repr

/-- One row of the `event_occurrences` table. -/
structure OccurrenceRow where
  id : Nat
  event_id : Nat
  start_datetime_utc : PyDateTime
  end_datetime_utc : Option PyDateTime
  location_text : Option String
  address_text : Option String
  venue_id : Option Nat
deriving DecidableEq, Repr

/-- One row of the `venues` table (the columns the resolver reads). -/
structure VenueRow where
  id : Nat
  name : String
deriving DecidableEq, Repr

/-- One row of the `venue_aliases` table. -/
structure VenueAliasRow where
  venue_id : Nat
  alias_normalized : String
deriving DecidableEq, Repr

/-- A `Source` row (the columns the ingestion pipeline reads). -/
structure SourceRow where
  id : Nat
  name : String
  url : Option String
  default_categories : Option String
deriving DecidableEq, Repr

/-- The relational store visible to the ingestion engine.  Category tables
are omitted: no claim concerns them and they share no state with the event
and occurrence tables. -/
structure DB where
  events : List EventRow
  occurrences : List OccurrenceRow
  venues : List VenueRow
  venue_aliases : List VenueAliasRow
deriving DecidableEq, Repr

/-! ## Venue resolver (`app/services/venue_resolver.py`)

`SequenceMatcher.ratio` comes from Python's standard library, not from this
repository, so the similarity measure is an explicit parameter `ratio`;
floats are modelled as rationals (`0.85` and the ratio values relevant to
the claims are exactly representable in both binary floating point
comparisons and ℚ). -/

/-- `FUZZY_MATCH_THRESHOLD = 0.85`. -/
def FUZZY_MATCH_THRESHOLD : ℚ := 85 / 100

/-- The fuzzy scan of `resolve_venue_id`: fold candidates in order keeping
`best_match_id`/`best_ratio`, accepting only `ratio > best_ratio` and
`ratio ≥ FUZZY_MATCH_THRESHOLD`. -/
def fuzzy_scan (norm : String) (ratio : String → String → ℚ)
    (cands : List (Nat × String)) (best : Option Nat × ℚ) : Option Nat × ℚ :=
  cands.foldl
    (fun acc c =>
      let r := ratio norm c.2
      if r > acc.2 ∧ FUZZY_MATCH_THRESHOLD ≤ r then (some c.1, r) else acc)
    best

/-- The fuzzy candidates in scan order: every alias (by its stored
normalised form), then every venue (by its normalised name). -/
def resolver_candidates (db : DB) : List (Nat × String) :=
  (db.venue_aliases.map fun a => (a.venue_id, a.alias_normalized)) ++
    (db.venues.map fun v => (v.id, normalize_location v.name))

/-- `resolve_venue_id` from `app/services/venue_resolver.py`. -/
def resolve_venue_id (ratio : String → String → ℚ) (db : DB)
    (location_text : Option String) : Option Nat :=
  match location_text with
  | none => none
  | some t =>
    if t = "" ∨ pyStrip t = "" then none
    else
      let norm := normalize_location t
      match db.venue_aliases.find? fun a => a.alias_normalized = norm with
      | some a => some a.venue_id
      | none =>
        match db.venues.find? fun v => normalize_location v.name = norm with
        | some v => some v.id
        | none =>
          let best :=
            fuzzy_scan norm ratio
              (db.venue_aliases.map fun a => (a.venue_id, a.alias_normalized))
              (none, 0)
          let best :=
            fuzzy_scan norm ratio
              (db.venues.map fun v => (v.id, normalize_location v.name))
              best
          best.1

/-! ## Upsert engine (`app/services/ingest_upsert.py`) -/

/-- Errors `upsert_event_and_occurrence` can raise: the two `ValueError`s
for naive timestamps, and an `IntegrityError` that escapes the
race-recovery handlers. -/
inductive UpsertError where
  | naive_start
  | naive_end
  | integrity
deriving DecidableEq, Repr

/-- Rows a concurrent writer commits just before each of the two `flush`
points inside one `upsert_event_and_occurrence` call.  The writer's inserts
are themselves filtered through the storage uniqueness constraints. -/
structure RaceEnv where
  event_rows : List EventRow
  occ_rows : List OccurrenceRow
deriving Repr

/-- No concurrent writer interferes with the call. -/
def RaceEnv.quiet : RaceEnv := ⟨[], []⟩

/-- Storage constraints an `events` insert can violate: the primary key,
the unique `slug` column, and the partial unique index
`uq_events_source_external_id` (which only covers non-null `external_id`). -/
def event_insert_conflict (events : List EventRow) (e : EventRow) : Bool :=
  events.any fun o =>
    decide (o.id = e.id) || decide (o.slug = e.slug) ||
      (decide (o.source_id = e.source_id) &&
        decide (o.external_id = e.external_id) && decide (e.external_id ≠ none))

/-- Storage constraints an `event_occurrences` insert can violate: the
primary key and the unique `(event_id, start_datetime_utc)` constraint. -/
def occ_insert_conflict (occs : List OccurrenceRow) (o : OccurrenceRow) :
    Bool :=
  occs.any fun p =>
    decide (p.id = o.id) ||
      (decide (p.event_id = o.event_id) &&
        decide (p.start_datetime_utc = o.start_datetime_utc))

/-- A concurrent writer's event inserts, each accepted only if it passes the
uniqueness constraints against the rows already present. -/
def writer_insert_events (events : List EventRow) (rows : List EventRow) :
    List EventRow :=
  rows.foldl
    (fun acc e => if event_insert_conflict acc e then acc else acc ++ [e])
    events

/-- A concurrent writer's occurrence inserts, constraint-checked. -/
def writer_insert_occs (occs : List OccurrenceRow)
    (rows : List OccurrenceRow) : List OccurrenceRow :=
  rows.foldl
    (fun acc o => if occ_insert_conflict acc o then acc else acc ++ [o])
    occs

/-- `_get_event`: select by `(source_id, external_id)`. -/
def get_event (db : DB) (source_id : Nat) (external_id : String) :
    Option EventRow :=
  db.events.find? fun e =>
    decide (e.source_id = source_id) && decide (e.external_id = some external_id)

/-- `_get_occurrence`: select by `(event_id, start_datetime_utc)`. -/
def get_occurrence (db : DB) (event_id : Nat) (start_utc : PyDateTime) :
    Option OccurrenceRow :=
  db.occurrences.find? fun o =>
    decide (o.event_id = event_id) && decide (o.start_datetime_utc = start_utc)

/-- `ORDER BY Event.id ASC LIMIT 1` over a list of candidate rows. -/
def min_by_id (l : List EventRow) : Option EventRow :=
  l.foldl
    (fun acc e =>
      match acc with
      | none => some e
      | some a => if e.id < a.id then some e else some a)
    none

/-- `_get_event_by_semantic_key`: same source, an occurrence at exactly
`start_utc`, and SQL-normalised title equal to the Python-normalised title
key; empty title key matches nothing. -/
def get_event_by_semantic_key (db : DB) (source_id : Nat) (title : String)
    (start_utc : PyDateTime) : Option EventRow :=
  let title_key := normalize_title_key title
  if title_key = "" then none
  else
    min_by_id <| db.events.filter fun e =>
      decide (e.source_id = source_id) &&
        decide (sql_title_key e.title = title_key) &&
        db.occurrences.any fun o =>
          decide (o.event_id = e.id) &&
            decide (o.start_datetime_utc = start_utc)

/-- Next value of a table's id sequence: one past the maximum id in use. -/
def fresh_id (ids : List Nat) : Nat :=
  ids.foldr max 0 + 1

/-- UPDATE of the row with the given id. -/
def update_event_row (events : List EventRow) (id : Nat) (e' : EventRow) :
    List EventRow :=
  events.map fun r => if r.id = id then e' else r

/-- UPDATE of the occurrence row with the given id. -/
def update_occ_row (occs : List OccurrenceRow) (id : Nat)
    (o' : OccurrenceRow) : List OccurrenceRow :=
  occs.map fun r => if r.id = id then o' else r

/-- `end_utc is not None and end_utc.tzinfo is None`. -/
def end_is_naive : Option PyDateTime → Bool
  | some e => !e.aware
  | none => false

/-- Python `a or b` on optional strings (`""` is falsy). -/
def py_or_str (a b : Option String) : Option String :=
  match a with
  | some s => if s = "" then b else some s
  | none => b

deriving instance DecidableEq for Except

/-- Result of one `upsert_event_and_occurrence` call: the store it leaves
behind, and either the resolved event's id or the exception raised. -/
structure UpsertResult where
  db : DB
  res : Except UpsertError Nat
deriving DecidableEq, Repr

/-- The occurrence half of `upsert_event_and_occurrence` (source lines
221-253): venue resolution, address extraction, then find / insert with
race recovery; the race handler re-reads and overwrites
end/location/address/venue, and re-raises when the re-read finds nothing. -/
def occurrence_phase (ratio : String → String → ℚ) (race : RaceEnv) (db : DB)
    (ev_id : Nat) (start_utc : PyDateTime) (end_utc : Option PyDateTime)
    (location : Option String) : UpsertResult :=
  let resolved_venue_id := resolve_venue_id ratio db location
  let address_text := extract_address location
  match get_occurrence db ev_id start_utc with
  | some occ =>
    let occ' :=
      { occ with
        end_datetime_utc := end_utc, location_text := location,
        address_text := address_text, venue_id := resolved_venue_id }
    { db := { db with occurrences := update_occ_row db.occurrences occ.id occ' }
      res := .ok ev_id }
  | none =>
    let db1 :=
      { db with occurrences := writer_insert_occs db.occurrences race.occ_rows }
    let newOcc : OccurrenceRow :=
      { id := fresh_id (db1.occurrences.map OccurrenceRow.id), event_id := ev_id,
        start_datetime_utc := start_utc, end_datetime_utc := end_utc,
        location_text := location, address_text := address_text,
        venue_id := resolved_venue_id }
    if occ_insert_conflict db1.occurrences newOcc then
      match get_occurrence db1 ev_id start_utc with
      | none => { db := db1, res := .error .integrity }
      | some occ =>
        let occ' :=
          { occ with
            end_datetime_utc := end_utc, location_text := location,
            address_text := address_text, venue_id := resolved_venue_id }
        { db :=
            { db1 with
              occurrences := update_occ_row db1.occurrences occ.id occ' }
          res := .ok ev_id }
    else
      { db := { db1 with occurrences := db1.occurrences ++ [newOcc] }
        res := .ok ev_id }

/-- `upsert_event_and_occurrence` from `app/services/ingest_upsert.py`.
`now` stands for `datetime.now(UTC)`; `race` carries the rows a concurrent
writer commits at each flush point (`RaceEnv.quiet` for a run with no
interference). -/
def upsert_event_and_occurrence (ratio : String → String → ℚ)
    (race : RaceEnv) (now : PyDateTime) (db : DB) (source : SourceRow)
    (external_id title : String) (description location : Option String)
    (start_utc : PyDateTime) (end_utc : Option PyDateTime)
    (external_url fallback_external_url : Option String) : UpsertResult :=
  if !start_utc.aware then { db := db, res := .error .naive_start }
  else if end_is_naive end_utc then { db := db, res := .error .naive_end }
  else
    let end_utc' : Option PyDateTime :=
      match end_utc with
      | some e => if e.epoch < start_utc.epoch then none else some e
      | none => none
    let final_url := py_or_str external_url fallback_external_url
    let ev0 := get_event db source.id external_id
    let ev1 :=
      match ev0 with
      | some e => some e
      | none => get_event_by_semantic_key db source.id title start_utc
    match ev1 with
    | some e =>
      let e' :=
        { e with
          title := title, description := description
          external_id :=
            match e.external_id with
            | none => some external_id
            | some x => some x
          external_url := final_url, last_seen_at := some now }
      let db2 := { db with events := update_event_row db.events e.id e' }
      occurrence_phase ratio race db2 e.id start_utc end_utc' location
    | none =>
      let db1 :=
        { db with events := writer_insert_events db.events race.event_rows }
      let slug := build_event_slug title source.id external_id
      let newEv : EventRow :=
        { id := fresh_id (db1.events.map EventRow.id), venue_id := none,
          source_id := source.id, title := title, description := description,
          slug := slug, is_free := false, price_text := none,
          status := "scheduled", hidden := false,
          external_id := some external_id, external_url := final_url,
          last_seen_at := some now }
      if event_insert_conflict db1.events newEv then
        match get_event db1 source.id external_id with
        | none => { db := db1, res := .error .integrity }
        | some e => occurrence_phase ratio race db1 e.id start_utc end_utc' location
      else
        let db2 := { db1 with events := db1.events ++ [newEv] }
        occurrence_phase ratio race db2 newEv.id start_utc end_utc' location

/-- The row the update branch of `upsert_event_and_occurrence` writes over
a resolved event: title/description/URL/last-seen refreshed, a null
`external_id` backfilled with the incoming one. -/
def updated_event (e : EventRow) (x t : String) (d : Option String)
    (u fu : Option String) (now : PyDateTime) : EventRow :=
  { e with
    title := t,
    description := d,
    external_id := (match e.external_id with
      | none => some x
      | some xx => some xx),
    external_url := py_or_str u fu,
    last_seen_at := some now }

/-- `end_utc` after the `end < start` discard. -/
def end_after_discard (s : PyDateTime) (en : Option PyDateTime) :
    Option PyDateTime :=
  match en with
  | some e2 => if e2.epoch < s.epoch then none else some e2
  | none => none

/-- The row the occurrence create branch inserts, given the occurrence
table visible at its flush. -/
def new_occ_row (ratio : String → String → ℚ) (db : DB)
    (occs : List OccurrenceRow) (ev_id : Nat) (s : PyDateTime)
    (en : Option PyDateTime) (loc : Option String) : OccurrenceRow :=
  { id := fresh_id (occs.map OccurrenceRow.id), event_id := ev_id,
    start_datetime_utc := s, end_datetime_utc := en, location_text := loc,
    address_text := extract_address loc,
    venue_id := resolve_venue_id ratio db loc }

/-- The row the create branch of `upsert_event_and_occurrence` inserts,
given the event table visible at its flush. -/
def new_event_row (events : List EventRow) (source : SourceRow) (x t : String)
    (d : Option String) (u fu : Option String) (now : PyDateTime) : EventRow :=
  { id := fresh_id (events.map EventRow.id), venue_id := none,
    source_id := source.id, title := t, description := d,
    slug := build_event_slug t source.id x, is_free := false,
    price_text := none, status := "scheduled", hidden := false,
    external_id := some x, external_url := py_or_str u fu,
    last_seen_at := some now }

/-! ## Engine step relation (for the storage invariant)

Any interleaving of `upsert_event_and_occurrence` calls (each with writer
interference at its flush points) and standalone constraint-checked writer
inserts. -/

/-- One step of the system: an upsert call by this engine, or a
constraint-checked insert committed by a concurrent writer. -/
inductive EngineStep where
  | upsert_call (race : RaceEnv) (now : PyDateTime) (source : SourceRow)
      (external_id title : String) (description location : Option String)
      (start_utc : PyDateTime) (end_utc : Option PyDateTime)
      (external_url fallback_external_url : Option String)
  | writer_event (e : EventRow)
  | writer_occ (o : OccurrenceRow)

/-- The store after one step (for an upsert call, the store it leaves
behind whether it returns or raises). -/
def apply_step (ratio : String → String → ℚ) (db : DB) : EngineStep → DB
  | .upsert_call race now source x t d loc s en u fu =>
    (upsert_event_and_occurrence ratio race now db source x t d loc s en u fu).db
  | .writer_event e => { db with events := writer_insert_events db.events [e] }
  | .writer_occ o => { db with occurrences := writer_insert_occs db.occurrences [o] }

/-- The store after a sequence of steps. -/
def run_steps (ratio : String → String → ℚ) (db : DB)
    (steps : List EngineStep) : DB :=
  steps.foldl (apply_step ratio) db

/-- Two event rows do not collide: distinct primary keys, and not the same
`(source_id, external_id)` with non-null `external_id`. -/
def event_distinct (a b : EventRow) : Prop :=
  a.id ≠ b.id ∧
    ¬(a.source_id = b.source_id ∧ a.external_id = b.external_id ∧
      a.external_id ≠ none)

/-- Two occurrence rows do not collide: distinct primary keys and distinct
`(event_id, start_datetime_utc)`. -/
def occ_distinct (a b : OccurrenceRow) : Prop :=
  a.id ≠ b.id ∧
    ¬(a.event_id = b.event_id ∧ a.start_datetime_utc = b.start_datetime_utc)

/-- The storage invariant: both uniqueness constraints (with primary-key
uniqueness) hold across the store. -/
def DBInv (db : DB) : Prop :=
  db.events.Pairwise event_distinct ∧ db.occurrences.Pairwise occ_distinct

/-! ## Big Top helpers (`app/services/ingest_bigtop.py`) -/

/-- Prefix test on character lists (structural). -/
def str_is_prefix (pat s : String) : Bool :=
  pat.toList.isPrefixOf s.toList

/-- Worker for `str_contains`: does `pat` occur in the haystack? -/
def containsGo (pat : List Char) : List Char → Bool
  | [] => pat.isEmpty
  | c :: cs => pat.isPrefixOf (c :: cs) || containsGo pat cs

/-- Python `needle in hay` on strings. -/
def str_contains (hay needle : String) : Bool :=
  containsGo needle.toList hay.toList

/-- `SourceFeed` row (the columns the orchestrator reads). -/
structure SourceFeedRow where
  id : Nat
  external_id : Option String
  ical_url : Option String
  page_url : Option String
  categories : Option String
deriving DecidableEq, Repr

/-- `is_bigtop_source`: the source URL mentions `bigtopbrewing.com`. -/
def is_bigtop_source (source : SourceRow) : Bool :=
  match source.url with
  | none => false
  | some u => if u = "" then false else str_contains (pyLower u) "bigtopbrewing.com"

/-- `is_bigtop_rollup_feed`: `happenings` appears in the feed's external id,
iCal URL or page URL (lowercased, `None` read as `""`). -/
def is_bigtop_rollup_feed (feed : SourceFeedRow) : Bool :=
  str_contains (pyLower (feed.external_id.getD "")) "happenings" ||
    str_contains (pyLower (feed.ical_url.getD "")) "happenings" ||
    str_contains (pyLower (feed.page_url.getD "")) "happenings"

/-- `make_signature`: `(normalized_title, start_utc)`. -/
def make_signature (title : Option String) (start_utc : PyDateTime) :
    String × PyDateTime :=
  (normalize_text title, start_utc)

/-- `build_existing_signature_map`: join `events` with `event_occurrences`
for this source, non-null `external_id` and a start time among
`start_times`; fold the rows with `setdefault`, skipping falsy external
ids.  Returned as an association list keyed by signature. -/
def build_existing_signature_map (db : DB) (source_id : Nat)
    (start_times : List PyDateTime) : List ((String × PyDateTime) × String) :=
  let rows :=
    (db.events.flatMap fun e => db.occurrences.map fun o => (e, o)).filterMap
      fun p =>
        if p.2.event_id = p.1.id ∧ p.1.source_id = source_id ∧
            start_times.contains p.2.start_datetime_utc then
          match p.1.external_id with
          | some x => some (p.1.title, p.2.start_datetime_utc, x)
          | none => none
        else none
  rows.foldl
    (fun out r =>
      if r.2.2 = "" then out
      else
        let signature := make_signature (some r.1) r.2.1
        if (out.find? fun kv => kv.1 = signature).isSome then out
        else out ++ [(signature, r.2.2)])
    []

/-! ## Orchestrator (`app/services/ingest_source_items.py`)

The HTTP fetch and the iCal parse of each feed are summarised by a
`FetchOutcome` input (what `fetch_ics` + `parse_ics` produced for that
feed, or which exception they raised); everything after that point is
translated from the source.  Sessions, throttling sleeps and the logging
sink have no effect on the store or the counters and are omitted. -/

/-- A parsed VEVENT as produced by `parse_ics` (`ParsedICalEvent`). -/
structure ParsedICalEvent where
  uid : String
  summary : String
  description : Option String
  location : Option String
  start_utc : PyDateTime
  end_utc : Option PyDateTime
  url : Option String
  categories : List String
deriving DecidableEq, Repr

/-- What fetching and parsing one feed yielded: a parsed event list, a
`CloudflareChallengeError`, or any other exception (with its display
text). -/
inductive FetchOutcome where
  | fetched (events : List ParsedICalEvent)
  | cf_challenge
  | failure (msg : String)
deriving DecidableEq, Repr

/-- One feed of the batch together with its fetch/parse outcome. -/
structure FeedInput where
  feed : SourceFeedRow
  outcome : FetchOutcome
deriving DecidableEq, Repr

/-- `prioritize_bigtop_feeds` lifted to the batch: rollup feeds moved to
the end, order otherwise preserved. -/
def prioritize_bigtop_inputs (items : List FeedInput) : List FeedInput :=
  items.filter (fun i => !is_bigtop_rollup_feed i.feed) ++
    items.filter (fun i => is_bigtop_rollup_feed i.feed)

/-- The per-feed outcome written onto the `SourceFeed` row (`none` for a
count field the code's error paths leave untouched). -/
structure FeedRecord where
  feed_id : Nat
  status : String
  error : Option String
  events_parsed : Option Nat
  events_ingested : Option Nat
deriving DecidableEq, Repr

/-- `f"{type(e).__name__}: {e}"` for the exceptions the model can raise
inside the per-feed loop. -/
def upsert_error_text : UpsertError → String
  | .naive_start => "ValueError: start_utc must be timezone-aware (UTC)"
  | .naive_end => "ValueError: end_utc must be timezone-aware (UTC)"
  | .integrity => "IntegrityError: duplicate key value violates unique constraint"

/-- Mutable state threaded through the orchestration loop. -/
structure RunState where
  db : DB
  seen_signatures : List (String × PyDateTime)
  ingested : Nat
  errors : Nat
  cf_challenges : Nat
  records : List FeedRecord
deriving DecidableEq, Repr

/-- The inner `for ev in parsed` loop of `ingest_source_items` for one feed:
returns the store, the run-wide signature set, the run-wide and per-feed
ingested counters, and the exception that aborted the loop, if any. -/
def process_parsed_events (ratio : String → String → ℚ) (now : PyDateTime)
    (is_bigtop : Bool) (source : SourceRow) (feed : SourceFeedRow)
    (sigmap : List ((String × PyDateTime) × String)) :
    List ParsedICalEvent → DB → List (String × PyDateTime) → Nat → Nat →
      DB × List (String × PyDateTime) × Nat × Nat × Option UpsertError
  | [], db, sigs, run_ing, feed_ing => (db, sigs, run_ing, feed_ing, none)
  | ev :: rest, db, sigs, run_ing, feed_ing =>
    let signature := make_signature (some ev.summary) ev.start_utc
    if is_bigtop ∧ sigs.contains signature then
      process_parsed_events ratio now is_bigtop source feed sigmap rest db sigs
        run_ing feed_ing
    else
      let existing_external_id : Option String :=
        if is_bigtop then (sigmap.find? fun kv => kv.1 = signature).map (·.2)
        else none
      match existing_external_id with
      | some x =>
        if x = "" then
          -- falsy map value: fall through to the generic upsert
          let r := upsert_event_and_occurrence ratio .quiet now db source
            ev.uid ev.summary ev.description ev.location ev.start_utc
            ev.end_utc ev.url feed.page_url
          match r.res with
          | .error e => (r.db, sigs, run_ing, feed_ing, some e)
          | .ok _ =>
            process_parsed_events ratio now is_bigtop source feed sigmap rest
              r.db (if is_bigtop then sigs ++ [signature] else sigs)
              (run_ing + 1) (feed_ing + 1)
        else
          let r := upsert_event_and_occurrence ratio .quiet now db source
            x ev.summary ev.description ev.location ev.start_utc
            ev.end_utc ev.url feed.page_url
          match r.res with
          | .error e => (r.db, sigs, run_ing, feed_ing, some e)
          | .ok _ =>
            process_parsed_events ratio now is_bigtop source feed sigmap rest
              r.db (sigs ++ [signature]) (run_ing + 1) (feed_ing + 1)
      | none =>
        let r := upsert_event_and_occurrence ratio .quiet now db source
          ev.uid ev.summary ev.description ev.location ev.start_utc
          ev.end_utc ev.url feed.page_url
        match r.res with
        | .error e => (r.db, sigs, run_ing, feed_ing, some e)
        | .ok _ =>
          process_parsed_events ratio now is_bigtop source feed sigmap rest
            r.db (if is_bigtop then sigs ++ [signature] else sigs)
            (run_ing + 1) (feed_ing + 1)

/-- One iteration of the per-feed loop (`try`/`except` body included). -/
def process_feed (ratio : String → String → ℚ) (now : PyDateTime)
    (is_bigtop : Bool) (source : SourceRow) (st : RunState) (fi : FeedInput) :
    RunState :=
  match fi.outcome with
  | .cf_challenge =>
    { st with
      cf_challenges := st.cf_challenges + 1
      records := st.records ++
        [{ feed_id := fi.feed.id, status := "cf_blocked"
           error := some "Cloudflare challenge - will retry on next run"
           events_parsed := none, events_ingested := none }] }
  | .failure msg =>
    { st with
      errors := st.errors + 1
      records := st.records ++
        [{ feed_id := fi.feed.id, status := "error", error := some msg
           events_parsed := none, events_ingested := none }] }
  | .fetched parsed =>
    let sigmap :=
      if is_bigtop then
        build_existing_signature_map st.db source.id (parsed.map (·.start_utc))
      else []
    match process_parsed_events ratio now is_bigtop source fi.feed sigmap
        parsed st.db st.seen_signatures st.ingested 0 with
    | (db', sigs', run_ing', feed_ing, none) =>
      { st with
        db := db', seen_signatures := sigs', ingested := run_ing'
        records := st.records ++
          [{ feed_id := fi.feed.id, status := "ok", error := none
             events_parsed := some parsed.length
             events_ingested := some feed_ing }] }
    | (db', sigs', run_ing', _, some e) =>
      { st with
        db := db', seen_signatures := sigs', ingested := run_ing'
        errors := st.errors + 1
        records := st.records ++
          [{ feed_id := fi.feed.id, status := "error"
             error := some (upsert_error_text e)
             events_parsed := none, events_ingested := none }] }

/-- Counters `ingest_source_items` returns. -/
structure IngestCounts where
  feeds_seen : Nat
  events_ingested : Nat
  errors : Nat
  cf_challenges : Nat
deriving DecidableEq, Repr

/-- `ingest_source_items` from `app/services/ingest_source_items.py`
(feeds are given already capped at the query limit and ordered by id). -/
def ingest_source_items (ratio : String → String → ℚ) (now : PyDateTime)
    (db : DB) (source : SourceRow) (feeds : List FeedInput) :
    RunState × IngestCounts :=
  let is_bigtop := is_bigtop_source source
  let items :=
    if is_bigtop ∧ feeds ≠ [] then prioritize_bigtop_inputs feeds else feeds
  let st0 : RunState :=
    { db := db, seen_signatures := [], ingested := 0, errors := 0,
      cf_challenges := 0, records := [] }
  let st := items.foldl (process_feed ratio now is_bigtop source) st0
  (st,
    { feeds_seen := items.length, events_ingested := st.ingested,
      errors := st.errors, cf_challenges := st.cf_challenges })

/-! ## Calendar fetcher (`app/ingestion/ical.py`, `fetch_ics`)

The network is an oracle mapping the attempt number to the response the
`session.get` of that attempt produced, already classified the way the
source classifies it: `_is_cloudflare_challenge` true (whether the status
was 2xx or raised through `raise_for_status`, both paths behave
identically), a non-challenge `requests.RequestException`, or a body,
which then goes through `_validate_ical_content`.  Bodies are modelled as
line lists; `random.uniform(0, 1)` jitter is an oracle as well. -/

/-- What one HTTP attempt produced. -/
inductive HttpResponse where
  | challenge
  | net_error (msg : String)
  | body (content : List String)
deriving DecidableEq, Repr

/-- The exceptions `fetch_ics` can raise. -/
inductive FetchError where
  | cloudflare
  | not_ical_data
  | request_error (msg : String)
deriving DecidableEq, Repr

/-- `_validate_ical_content`: the blob (after BOM/whitespace stripping)
starts with `BEGIN:VCALENDAR` — on the line model, the first non-blank
line does. -/
def validate_ical_content (content : List String) : Bool :=
  match ((content.map pyStrip).filter (· ≠ "")).head? with
  | none => false
  | some l => str_is_prefix "BEGIN:VCALENDAR" l

/-- What a `fetch_ics` call did: its outcome, how many HTTP attempts it
made, and the backoff delays it slept. -/
structure FetchTrace where
  result : Except FetchError (List String)
  attempts : Nat
  sleeps : List ℚ
deriving DecidableEq, Repr

/-- The retry loop of `fetch_ics`; `fuel` is the number of loop iterations
still allowed (`1 + max_retries` at the start, so the `fuel = 0` fallthrough
mirrors the unreachable final `raise` after the loop). -/
def fetch_ics_loop (responses : Nat → HttpResponse) (jitter : Nat → ℚ)
    (max_retries : Nat) (base_delay : ℚ) :
    Nat → Nat → List ℚ → FetchTrace
  | 0, attempt, sleeps => ⟨.error .cloudflare, attempt, sleeps⟩
  | fuel + 1, attempt, sleeps =>
    match responses attempt with
    | .challenge =>
      let delay := base_delay * 2 ^ attempt + jitter attempt
      if attempt < max_retries then
        fetch_ics_loop responses jitter max_retries base_delay fuel
          (attempt + 1) (sleeps ++ [delay])
      else ⟨.error .cloudflare, attempt + 1, sleeps⟩
    | .net_error msg => ⟨.error (.request_error msg), attempt + 1, sleeps⟩
    | .body content =>
      if validate_ical_content content then ⟨.ok content, attempt + 1, sleeps⟩
      else ⟨.error .not_ical_data, attempt + 1, sleeps⟩

/-- `fetch_ics` (defaults `max_retries = 3`, `base_delay = 2.0`). -/
def fetch_ics (responses : Nat → HttpResponse) (jitter : Nat → ℚ)
    (max_retries : Nat := 3) (base_delay : ℚ := 2) : FetchTrace :=
  fetch_ics_loop responses jitter max_retries base_delay (1 + max_retries) 0 []

/-! ## Calendar sanitizer and parser (`app/ingestion/ical.py`) -/

/-- `_BOGUS_DTEND_RE = ^DTEND:-\d+T\d+\r?\n` tested against one line: the
whole line is `DTEND:-`, digits, `T`, digits. -/
def is_bogus_dtend_line (l : String) : Bool :=
  let cs := l.toList
  if cs.take 7 = "DTEND:-".toList then
    let rest := cs.drop 7
    let ds := rest.takeWhile Char.isDigit
    match rest.drop ds.length with
    | 'T' :: rest2 => ds ≠ [] && rest2 ≠ [] && rest2.all Char.isDigit
    | _ => false
  else false

/-- `_EMPTY_UNTIL_RE = UNTIL=;` deleted everywhere in a line
(left-to-right, non-overlapping, as `re.sub`). -/
def strip_empty_until : List Char → List Char
  | 'U' :: 'N' :: 'T' :: 'I' :: 'L' :: '=' :: ';' :: rest => strip_empty_until rest
  | c :: rest => c :: strip_empty_until rest
  | [] => []

/-- `_sanitize_popmenu_ical`: drop bogus `DTEND` lines, delete empty
`UNTIL=;` parameters. -/
def sanitize_popmenu_ical (lines : List String) : List String :=
  (lines.filter fun l => !is_bogus_dtend_line l).map fun l =>
    ⟨strip_empty_until l.toList⟩

/-- The character lists of a `BEGIN:VEVENT` … `END:VEVENT` block, in
order. -/
def vevent_blocks (lines : List String) : List (List String) :=
  (lines.foldl
    (fun (st : Option (List String) × List (List String)) l =>
      match st.1 with
      | none => if l = "BEGIN:VEVENT" then (some [], st.2) else (none, st.2)
      | some cur =>
        if l = "END:VEVENT" then (none, st.2 ++ [cur])
        else (some (cur ++ [l]), st.2))
    (none, [])).2

/-- The value of the first `NAME:value` line of a block. -/
def prop_value (name : String) (block : List String) : Option String :=
  (block.find? fun l => str_is_prefix (name ++ ":") l).map fun l =>
    ⟨l.toList.drop (name.toList.length + 1)⟩

/-- Digits of a character list as a number, if non-empty and all digits. -/
def parse_digits (cs : List Char) : Option Nat :=
  if cs ≠ [] ∧ cs.all Char.isDigit then
    some (cs.foldl (fun n c => 10 * n + (c.toNat - '0'.toNat)) 0)
  else none

/-- Days from 1970-01-01 of a proleptic Gregorian civil date
(standard civil-from-days inverse; operands are non-negative for the
years this model is used at). -/
def days_from_civil (y m d : Int) : Int :=
  let y2 := if m ≤ 2 then y - 1 else y
  let era := (if 0 ≤ y2 then y2 else y2 - 399) / 400
  let yoe := y2 - era * 400
  let mp := (m + 9) % 12
  let doy := (153 * mp + 2) / 5 + d - 1
  let doe := yoe * 365 + yoe / 4 - yoe / 100 + doy
  era * 146097 + doe - 719468

/-- Epoch seconds of an iCal basic date-time value
`YYYYMMDDTHHMMSS[Z]` or date value `YYYYMMDD`.  Timezone coercion
(`_dt_to_utc`) is modelled as identity: the default-zone offset is not
exercised by the claims under verification, whose fixtures carry `Z`
(UTC) values. -/
def ical_dt_to_epoch (v : String) : Option Int :=
  let cs := v.toList
  match parse_digits (cs.take 4), parse_digits ((cs.drop 4).take 2),
      parse_digits ((cs.drop 6).take 2) with
  | some y, some mo, some d =>
    let date_part : Int := days_from_civil y mo d * 86400
    match cs.drop 8 with
    | [] => some date_part
    | 'T' :: rest =>
      let hms := rest.takeWhile Char.isDigit
      match parse_digits (hms.take 2), parse_digits ((hms.drop 2).take 2),
          parse_digits ((hms.drop 4).take 2) with
      | some h, some mi, some s =>
        if hms.length = 6 then
          some (date_part + 3600 * h + 60 * mi + s)
        else none
      | _, _, _ => none
    | _ => none
  | _, _, _ => none

/-- `DEFAULT_EXPAND_MONTHS = 6`. -/
def DEFAULT_EXPAND_MONTHS : Nat := 6

/-- The start times a weekly rule contributes inside the window
`[win_start, win_end]`. -/
def weekly_occurrences (start win_start win_end : Int) : List Int :=
  let bound := ((win_end - start).toNat / 604800) + 1
  ((List.range bound).map fun k => start + 604800 * (k : Int)).filter
    fun t => decide (win_start ≤ t) && decide (t ≤ win_end)

/-- Modelled from the spec: the recurrence expansion performed by the
third-party `recurring_ical_events` library (`of(cal).between(a, b)`),
which is not part of this repository.  Per the spec, expansion is bounded
to the window and recurring items repeat within it; per the source's own
documentation of the upstream defect, the library "silently returns 0
occurrences" when a block still carries a bogus `DTEND` date or an empty
`UNTIL=` parameter.  Non-recurring items yield their own start if it lies
in the window; `FREQ=WEEKLY` rules repeat every 7 days.  Each expanded
occurrence keeps the block's `DTEND`, shifted with the occurrence. -/
def expand_block (block : List String) (win_start win_end : Int) :
    List (Int × Option Int) :=
  if block.any (fun l => str_contains l "UNTIL=;") ∨
      block.any is_bogus_dtend_line then []
  else
    match (prop_value "DTSTART" block).bind ical_dt_to_epoch with
    | none => []
    | some start =>
      let dtend := (prop_value "DTEND" block).bind ical_dt_to_epoch
      let weekly := block.any fun l =>
        str_is_prefix "RRULE:" l && str_contains l "FREQ=WEEKLY"
      if weekly then
        (weekly_occurrences start win_start win_end).map fun t =>
          (t, dtend.map fun e => e + (t - start))
      else if decide (win_start ≤ start) && decide (start ≤ win_end) then
        [(start, dtend)]
      else []

/-- The non-date fields of one expanded component, as `parse_ics` reads
them (`str(comp.get(...) or "").strip() or None` etc.). -/
def opt_of_stripped (v : Option String) : Option String :=
  let s := pyStrip (v.getD "")
  if s = "" then none else some s

/-- `_normalize_categories` on the string form of `CATEGORIES`: split on
commas, strip, drop empties, deduplicate case-insensitively keeping the
first spelling. -/
def normalize_categories (v : Option String) : List String :=
  match v with
  | none => []
  | some s =>
    (((split_on_comma s.toList).map fun l => pyStrip ⟨l⟩)).foldl
      (fun acc c =>
        if c = "" then acc
        else if acc.any (fun k => pyLower k = pyLower c) then acc
        else acc ++ [c])
      []

/-- `parse_ics`: sanitize (unless skipped), expand every VEVENT inside the
window `[now - 1 day, now + expand_months * 30 days]`, drop components
without a UID. -/
def parse_ics (sanitize : Bool) (now : Int)
    (lines : List String) (expand_months : Nat := DEFAULT_EXPAND_MONTHS) :
    List ParsedICalEvent :=
  let lines := if sanitize then sanitize_popmenu_ical lines else lines
  let win_start := now - 86400
  let win_end := now + (expand_months : Int) * 30 * 86400
  (vevent_blocks lines).flatMap fun block =>
    let uid := pyStrip ((prop_value "UID" block).getD "")
    if uid = "" then []
    else
      let summary0 := pyStrip ((prop_value "SUMMARY" block).getD "")
      let summary := if summary0 = "" then "(Untitled)" else summary0
      (expand_block block win_start win_end).map fun occ =>
        { uid := uid, summary := summary
          description := opt_of_stripped (prop_value "DESCRIPTION" block)
          location := opt_of_stripped (prop_value "LOCATION" block)
          start_utc := ⟨occ.1, true⟩
          end_utc := occ.2.map fun e => ⟨e, true⟩
          url := opt_of_stripped (prop_value "URL" block)
          categories := normalize_categories (prop_value "CATEGORIES" block) }

/-! ## Concrete fixtures used by witnesses and counterexamples -/

/-- The Popmenu regression blob of the spec: a weekly event carrying both
defective lines, literally. -/
def popmenu_blob : List String :=
  ["BEGIN:VCALENDAR",
   "VERSION:2.0",
   "BEGIN:VEVENT",
   "UID:popmenu-1",
   "SUMMARY:Trivia Thursday",
   "DTSTART:20260101T000000Z",
   "DTEND:-47120101T235959",
   "RRULE:FREQ=WEEKLY;UNTIL=;BYDAY=TH",
   "END:VEVENT",
   "END:VCALENDAR"]

/-- 2026-01-01T00:00:00Z as epoch seconds. -/
def now_fix : Int := 1767225600

/-- A Big Top source row. -/
def src_fix : SourceRow :=
  { id := 1, name := "Big Top Brewing",
    url := some "https://bigtopbrewing.com/", default_categories := none }

/-- The empty store. -/
def db_empty : DB :=
  { events := [], occurrences := [], venues := [], venue_aliases := [] }

/-- A degenerate similarity measure (never used by the scenarios that carry
it, which resolve no venue). -/
def ratio0 : String → String → ℚ := fun _ _ => 0

/-- A fixture start time. -/
def T_fix : PyDateTime := ⟨1000, true⟩

/-- A fixture `datetime.now(UTC)`. -/
def now_dt_fix : PyDateTime := ⟨5000, true⟩

/-- The row a concurrent writer commits in the C2 race scenario: same
natural key `(1, "X")` the engine is about to insert, different payload. -/
def writer_row_fix : EventRow :=
  { id := 50, venue_id := none, source_id := 1, title := "writer title",
    description := some "writer description", slug := "writer-slug",
    is_free := false, price_text := none, status := "scheduled",
    hidden := false, external_id := some "X", external_url := none,
    last_seen_at := none }

/-- The upsert call racing against `writer_row_fix`. -/
def race_call_fix : UpsertResult :=
  upsert_event_and_occurrence ratio0 ⟨[writer_row_fix], []⟩ now_dt_fix
    db_empty src_fix "X" "mine" (some "mine description") none T_fix none
    none none

/-- The occurrence a concurrent writer commits in the C2 occurrence-race
scenario: same `(event 50, T_fix)` key the engine is about to insert. -/
def occ_w_fix : OccurrenceRow :=
  { id := 70, event_id := 50, start_datetime_utc := T_fix,
    end_datetime_utc := some ⟨2000, true⟩,
    location_text := some "writer location", address_text := none,
    venue_id := none }

/-- Writer interference at both flush points. -/
def race2_fix : RaceEnv := ⟨[writer_row_fix], [occ_w_fix]⟩

/-- A four-step engine trace: an upsert, a writer insert that conflicts
with the created row, a racing repeat of the same sighting, and a writer
occurrence insert. -/
def steps_fix : List EngineStep :=
  [.upsert_call .quiet now_dt_fix src_fix "X" "mine" (some "d") none T_fix
    none none none,
   .writer_event writer_row_fix,
   .upsert_call race2_fix now_dt_fix src_fix "X" "mine" none none T_fix
    none none none,
   .writer_occ occ_w_fix]

/-- Per-item parsed event of the rollup scenario. -/
def evA_fix : ParsedICalEvent :=
  { uid := "uid-A", summary := "Trivia Night",
    description := some "from per-item", location := none,
    start_utc := T_fix, end_utc := none, url := none, categories := [] }

/-- Rollup parsed event: same signature as `evA_fix` (title normalises to
`trivia night` at the same start time), no matching identifier. -/
def evB_fix : ParsedICalEvent :=
  { uid := "", summary := "trivia  night",
    description := some "from rollup", location := none,
    start_utc := T_fix, end_utc := none, url := none, categories := [] }

/-- The per-item feed of the rollup scenario. -/
def per_item_feed_fix : SourceFeedRow :=
  { id := 10, external_id := some "item-1",
    ical_url := some "https://bigtopbrewing.com/e1.ics", page_url := none,
    categories := none }

/-- The rollup ("happenings") feed of the rollup scenario. -/
def rollup_feed_fix : SourceFeedRow :=
  { id := 11, external_id := some "happenings-jan",
    ical_url := some "https://bigtopbrewing.com/happenings.ics",
    page_url := none, categories := none }

/-- The one-run rollup scenario: the per-item feed first, then the rollup
feed repeating the same `(normalized title, start)` pair twice. -/
def rollup_run_fix : RunState × IngestCounts :=
  ingest_source_items ratio0 now_dt_fix db_empty src_fix
    [⟨per_item_feed_fix, .fetched [evA_fix]⟩,
     ⟨rollup_feed_fix, .fetched [evB_fix, evB_fix]⟩]

/-- An event created without an identifier (semantic-key candidate),
hidden by an administrator. -/
def sem_event_fix : EventRow :=
  { id := 3, venue_id := none, source_id := 1, title := "Trivia Night",
    description := none, slug := "t-slug", is_free := false,
    price_text := none, status := "scheduled", hidden := true,
    external_id := none, external_url := none, last_seen_at := none }

/-- The occurrence anchoring `sem_event_fix` at `T_fix`. -/
def sem_occ_fix : OccurrenceRow :=
  { id := 4, event_id := 3, start_datetime_utc := T_fix,
    end_datetime_utc := none, location_text := none, address_text := none,
    venue_id := none }

/-- A store holding only the identifier-less event and its occurrence. -/
def db_sem_fix : DB :=
  { events := [sem_event_fix], occurrences := [sem_occ_fix], venues := [],
    venue_aliases := [] }

/-- A store holding one venue alias `big top brewing → venue 7`. -/
def db_venue_fix : DB :=
  { events := [], occurrences := [], venues := [],
    venue_aliases := [⟨7, "big top brewing"⟩] }

/-- A similarity measure scoring every comparison exactly `0.85`. -/
def ratio85 : String → String → ℚ := fun _ _ => 85 / 100

/-- A similarity measure scoring every comparison exactly `0.84`. -/
def ratio84 : String → String → ℚ := fun _ _ => 84 / 100

/-! ## Shared lemmas -/

theorem le_foldr_max {n : Nat} :
    ∀ {ids : List Nat}, n ∈ ids → n ≤ ids.foldr max 0 := by
  intro ids h
  induction ids with
  | nil => cases h
  | cons a t ih =>
    rcases List.mem_cons.mp h with rfl | hmem
    · exact le_max_left _ _
    · exact le_trans (ih hmem) (le_max_right _ _)

theorem mem_lt_fresh_id {n : Nat} {ids : List Nat} (h : n ∈ ids) :
    n < fresh_id ids :=
  Nat.lt_succ_of_le (le_foldr_max h)

/-- The occurrence half can never surface an error: an insert conflict on
its natural key implies the re-read finds a row, and a primary-key conflict
with the fresh id is impossible. -/
theorem occurrence_phase_res (ratio : String → String → ℚ) (race : RaceEnv)
    (db : DB) (ev_id : Nat) (s : PyDateTime) (en : Option PyDateTime)
    (loc : Option String) :
    (occurrence_phase ratio race db ev_id s en loc).res = .ok ev_id := by
  unfold occurrence_phase
  cases hocc : get_occurrence db ev_id s with
  | some occ => rfl
  | none =>
    simp only
    split
    · next hconf =>
      cases hre : get_occurrence
          { db with occurrences := writer_insert_occs db.occurrences race.occ_rows }
          ev_id s with
      | some occ => rfl
      | none =>
        exfalso
        simp only [occ_insert_conflict, List.any_eq_true, Bool.or_eq_true,
          Bool.and_eq_true, decide_eq_true_eq] at hconf
        obtain ⟨p, hp, hcase⟩ := hconf
        rcases hcase with hid | ⟨hev, hst⟩
        · exact absurd hid
            (Nat.ne_of_lt (mem_lt_fresh_id (List.mem_map_of_mem OccurrenceRow.id hp)))
        · have : (get_occurrence
              { db with occurrences := writer_insert_occs db.occurrences race.occ_rows }
              ev_id s).isSome := by
            simp only [get_occurrence, List.find?_isSome]
            exact ⟨p, hp, by simp [hev, hst]⟩
          rw [hre] at this
          exact Bool.noConfusion this
    · rfl

/-- The occurrence half touches only the `occurrences` table. -/
theorem occurrence_phase_events (ratio : String → String → ℚ)
    (race : RaceEnv) (db : DB) (ev_id : Nat) (s : PyDateTime)
    (en : Option PyDateTime) (loc : Option String) :
    (occurrence_phase ratio race db ev_id s en loc).db.events = db.events ∧
    (occurrence_phase ratio race db ev_id s en loc).db.venues = db.venues ∧
    (occurrence_phase ratio race db ev_id s en loc).db.venue_aliases =
      db.venue_aliases := by
  unfold occurrence_phase
  cases hocc : get_occurrence db ev_id s with
  | some occ => exact ⟨rfl, rfl, rfl⟩
  | none =>
    simp only
    split
    · cases hre : get_occurrence
          { db with occurrences := writer_insert_occs db.occurrences race.occ_rows }
          ev_id s with
      | some occ => exact ⟨rfl, rfl, rfl⟩
      | none => exact ⟨rfl, rfl, rfl⟩
    · exact ⟨rfl, rfl, rfl⟩

/-- UPDATE by id keeps `find?` pointing at the replacement, when primary
keys are unique and the replacement still satisfies the predicate. -/
theorem find?_update_occ {occs : List OccurrenceRow} {occ occ' : OccurrenceRow}
    {p : OccurrenceRow → Bool}
    (hpair : occs.Pairwise fun a b => a.id ≠ b.id)
    (hfind : occs.find? p = some occ) (hp : p occ' = true)
    (hid : occ'.id = occ.id) :
    (update_occ_row occs occ.id occ').find? p = some occ' := by
  induction occs with
  | nil => cases hfind
  | cons h tl ih =>
    by_cases hph : p h
    · rw [List.find?_cons_of_pos _ hph] at hfind
      injection hfind with he
      subst he
      unfold update_occ_row
      rw [List.map_cons, if_pos rfl]
      exact List.find?_cons_of_pos _ hp
    · rw [List.find?_cons_of_neg _ hph] at hfind
      have hocc_mem : occ ∈ tl := List.mem_of_find?_eq_some hfind
      have hne : h.id ≠ occ.id := (List.pairwise_cons.mp hpair).1 occ hocc_mem
      unfold update_occ_row
      rw [List.map_cons, if_neg hne, List.find?_cons_of_neg _ hph]
      exact ih (List.pairwise_cons.mp hpair).2 hfind

/-- With no writer interference, the occurrence half leaves behind a row at
`(ev_id, start)` carrying exactly the overwritten display fields. -/
theorem occurrence_phase_spec (ratio : String → String → ℚ) (db : DB)
    (ev_id : Nat) (s : PyDateTime) (en : Option PyDateTime)
    (loc : Option String)
    (hpair : db.occurrences.Pairwise fun a b => a.id ≠ b.id) :
    ∃ occ, get_occurrence (occurrence_phase ratio .quiet db ev_id s en loc).db
        ev_id s = some occ ∧
      occ.event_id = ev_id ∧ occ.start_datetime_utc = s ∧
      occ.end_datetime_utc = en ∧ occ.location_text = loc ∧
      occ.address_text = extract_address loc ∧
      occ.venue_id = resolve_venue_id ratio db loc := by
  unfold occurrence_phase
  cases hocc : get_occurrence db ev_id s with
  | some occ =>
    have hpocc := List.find?_some hocc
    simp only [Bool.and_eq_true, decide_eq_true_eq] at hpocc
    have hupd := @find?_update_occ db.occurrences occ
      { occ with
        end_datetime_utc := en, location_text := loc,
        address_text := extract_address loc,
        venue_id := resolve_venue_id ratio db loc }
      _ hpair hocc (by simp [hpocc.1, hpocc.2]) rfl
    exact ⟨_, hupd, hpocc.1, hpocc.2, rfl, rfl, rfl, rfl⟩
  | none =>
    simp only [RaceEnv.quiet, writer_insert_occs, List.foldl_nil]
    have hconf : occ_insert_conflict db.occurrences
        { id := fresh_id (db.occurrences.map OccurrenceRow.id),
          event_id := ev_id, start_datetime_utc := s, end_datetime_utc := en,
          location_text := loc, address_text := extract_address loc,
          venue_id := resolve_venue_id ratio db loc } = false := by
      rw [Bool.eq_false_iff]
      intro hc
      simp only [occ_insert_conflict, List.any_eq_true, Bool.or_eq_true,
        Bool.and_eq_true, decide_eq_true_eq] at hc
      obtain ⟨p, hpmem, hcase⟩ := hc
      rcases hcase with hid | ⟨hev, hst⟩
      · exact absurd hid
          (Nat.ne_of_lt (mem_lt_fresh_id (List.mem_map_of_mem OccurrenceRow.id hpmem)))
      · have : (get_occurrence db ev_id s).isSome := by
          simp only [get_occurrence, List.find?_isSome]
          exact ⟨p, hpmem, by simp [hev, hst]⟩
        rw [hocc] at this
        exact Bool.noConfusion this
    rw [hconf]
    simp only [Bool.false_eq_true, if_false]
    refine Exists.intro
      { id := fresh_id (db.occurrences.map OccurrenceRow.id),
        event_id := ev_id, start_datetime_utc := s, end_datetime_utc := en,
        location_text := loc, address_text := extract_address loc,
        venue_id := resolve_venue_id ratio db loc }
      ⟨?_, rfl, rfl, rfl, rfl, rfl, rfl⟩
    unfold get_occurrence at hocc ⊢
    simp only
    rw [List.find?_append, hocc, Option.none_or]
    rw [List.find?_cons_of_pos _ (by simp)]

/-- The update branch: a row resolved by `(source_id, external_id)` leads
to the field refresh followed by the occurrence phase. -/
theorem upsert_found (ratio : String → String → ℚ) (race : RaceEnv)
    (now : PyDateTime) (db : DB) (source : SourceRow) (x t : String)
    (d loc : Option String) (s : PyDateTime) (en : Option PyDateTime)
    (u fu : Option String) (e : EventRow)
    (hs : s.aware = true) (hen : end_is_naive en = false)
    (hres : get_event db source.id x = some e) :
    upsert_event_and_occurrence ratio race now db source x t d loc s en u fu =
      occurrence_phase ratio race
        { db with events :=
            update_event_row db.events e.id (updated_event e x t d u fu now) }
        e.id s (end_after_discard s en) loc := by
  simp only [upsert_event_and_occurrence, hs, hen, hres, Bool.not_true,
    Bool.false_eq_true, if_false, updated_event, end_after_discard]

/-- The update branch via the semantic fallback key. -/
theorem upsert_semantic (ratio : String → String → ℚ) (race : RaceEnv)
    (now : PyDateTime) (db : DB) (source : SourceRow) (x t : String)
    (d loc : Option String) (s : PyDateTime) (en : Option PyDateTime)
    (u fu : Option String) (e : EventRow)
    (hs : s.aware = true) (hen : end_is_naive en = false)
    (hres0 : get_event db source.id x = none)
    (hres : get_event_by_semantic_key db source.id t s = some e) :
    upsert_event_and_occurrence ratio race now db source x t d loc s en u fu =
      occurrence_phase ratio race
        { db with events :=
            update_event_row db.events e.id (updated_event e x t d u fu now) }
        e.id s (end_after_discard s en) loc := by
  simp only [upsert_event_and_occurrence, hs, hen, hres0, hres, Bool.not_true,
    Bool.false_eq_true, if_false, updated_event, end_after_discard]

/-- The create branch with a clean flush. -/
theorem upsert_create_ok (ratio : String → String → ℚ) (race : RaceEnv)
    (now : PyDateTime) (db : DB) (source : SourceRow) (x t : String)
    (d loc : Option String) (s : PyDateTime) (en : Option PyDateTime)
    (u fu : Option String)
    (hs : s.aware = true) (hen : end_is_naive en = false)
    (hres0 : get_event db source.id x = none)
    (hsem : get_event_by_semantic_key db source.id t s = none)
    (hconf : event_insert_conflict
        (writer_insert_events db.events race.event_rows)
        (new_event_row (writer_insert_events db.events race.event_rows)
          source x t d u fu now) = false) :
    upsert_event_and_occurrence ratio race now db source x t d loc s en u fu =
      occurrence_phase ratio race
        { db with events :=
            writer_insert_events db.events race.event_rows ++
              [new_event_row (writer_insert_events db.events race.event_rows)
                source x t d u fu now] }
        (new_event_row (writer_insert_events db.events race.event_rows)
          source x t d u fu now).id
        s (end_after_discard s en) loc := by
  simp only [new_event_row] at hconf
  simp only [upsert_event_and_occurrence, hs, hen, hres0, hsem, hconf,
    Bool.not_true, Bool.false_eq_true, if_false, new_event_row,
    end_after_discard]

/-- The create branch hitting an insert race the re-read recovers from:
the engine continues with the re-read row, with no field refresh. -/
theorem upsert_create_conflict_found (ratio : String → String → ℚ)
    (race : RaceEnv) (now : PyDateTime) (db : DB) (source : SourceRow)
    (x t : String) (d loc : Option String) (s : PyDateTime)
    (en : Option PyDateTime) (u fu : Option String) (e : EventRow)
    (hs : s.aware = true) (hen : end_is_naive en = false)
    (hres0 : get_event db source.id x = none)
    (hsem : get_event_by_semantic_key db source.id t s = none)
    (hconf : event_insert_conflict
        (writer_insert_events db.events race.event_rows)
        (new_event_row (writer_insert_events db.events race.event_rows)
          source x t d u fu now) = true)
    (hre : get_event
        { db with events := writer_insert_events db.events race.event_rows }
        source.id x = some e) :
    upsert_event_and_occurrence ratio race now db source x t d loc s en u fu =
      occurrence_phase ratio race
        { db with events := writer_insert_events db.events race.event_rows }
        e.id s (end_after_discard s en) loc := by
  simp only [new_event_row] at hconf
  simp only [upsert_event_and_occurrence, hs, hen, hres0, hsem, hconf, hre,
    Bool.not_true, Bool.false_eq_true, if_false, if_true, new_event_row,
    end_after_discard]

/-- The create branch whose insert race the re-read cannot recover from
(e.g. a slug collision): the `IntegrityError` surfaces. -/
theorem upsert_create_conflict_none (ratio : String → String → ℚ)
    (race : RaceEnv) (now : PyDateTime) (db : DB) (source : SourceRow)
    (x t : String) (d loc : Option String) (s : PyDateTime)
    (en : Option PyDateTime) (u fu : Option String)
    (hs : s.aware = true) (hen : end_is_naive en = false)
    (hres0 : get_event db source.id x = none)
    (hsem : get_event_by_semantic_key db source.id t s = none)
    (hconf : event_insert_conflict
        (writer_insert_events db.events race.event_rows)
        (new_event_row (writer_insert_events db.events race.event_rows)
          source x t d u fu now) = true)
    (hre : get_event
        { db with events := writer_insert_events db.events race.event_rows }
        source.id x = none) :
    upsert_event_and_occurrence ratio race now db source x t d loc s en u fu =
      ⟨{ db with events := writer_insert_events db.events race.event_rows },
        .error .integrity⟩ := by
  simp only [new_event_row] at hconf
  simp only [upsert_event_and_occurrence, hs, hen, hres0, hsem, hconf, hre,
    Bool.not_true, Bool.false_eq_true, if_false, if_true, new_event_row]

/-- With no writer interference, a successful upsert leaves behind an
occurrence row at `(eid, start)` whose end is the post-discard end and
whose display fields are the incoming ones. -/
theorem upsert_occ_written (ratio : String → String → ℚ) (now : PyDateTime)
    (db : DB) (source : SourceRow) (x t : String) (d loc : Option String)
    (s : PyDateTime) (en : Option PyDateTime) (u fu : Option String)
    (eid : Nat)
    (hpair : db.occurrences.Pairwise fun a b => a.id ≠ b.id)
    (hs : s.aware = true) (hen : end_is_naive en = false)
    (hok : (upsert_event_and_occurrence ratio .quiet now db source x t d loc
        s en u fu).res = .ok eid) :
    ∃ occ, get_occurrence (upsert_event_and_occurrence ratio .quiet now db
        source x t d loc s en u fu).db eid s = some occ ∧
      occ.end_datetime_utc = end_after_discard s en ∧
      occ.location_text = loc ∧ occ.address_text = extract_address loc := by
  cases hres : get_event db source.id x with
  | some e =>
    rw [upsert_found ratio .quiet now db source x t d loc s en u fu e hs hen hres] at hok ⊢
    have heid : eid = e.id := by
      rw [occurrence_phase_res] at hok
      exact (Except.ok.inj hok).symm
    rw [heid]
    obtain ⟨occ, hfind, -, -, hend, hloc, haddr, -⟩ :=
      occurrence_phase_spec ratio
        { db with events :=
            update_event_row db.events e.id (updated_event e x t d u fu now) }
        e.id s (end_after_discard s en) loc hpair
    exact ⟨occ, hfind, hend, hloc, haddr⟩
  | none =>
    cases hsem : get_event_by_semantic_key db source.id t s with
    | some e =>
      rw [upsert_semantic ratio .quiet now db source x t d loc s en u fu e hs hen hres hsem] at hok ⊢
      have heid : eid = e.id := by
        rw [occurrence_phase_res] at hok
        exact (Except.ok.inj hok).symm
      rw [heid]
      obtain ⟨occ, hfind, -, -, hend, hloc, haddr, -⟩ :=
        occurrence_phase_spec ratio
          { db with events :=
              update_event_row db.events e.id (updated_event e x t d u fu now) }
          e.id s (end_after_discard s en) loc hpair
      exact ⟨occ, hfind, hend, hloc, haddr⟩
    | none =>
      cases hconf : event_insert_conflict
          (writer_insert_events db.events RaceEnv.quiet.event_rows)
          (new_event_row (writer_insert_events db.events RaceEnv.quiet.event_rows)
            source x t d u fu now) with
      | false =>
        rw [upsert_create_ok ratio .quiet now db source x t d loc s en u fu
          hs hen hres hsem hconf] at hok ⊢
        have heid : eid = (new_event_row
            (writer_insert_events db.events RaceEnv.quiet.event_rows)
            source x t d u fu now).id := by
          rw [occurrence_phase_res] at hok
          exact (Except.ok.inj hok).symm
        rw [heid]
        obtain ⟨occ, hfind, -, -, hend, hloc, haddr, -⟩ :=
          occurrence_phase_spec ratio
            { db with events :=
                writer_insert_events db.events RaceEnv.quiet.event_rows ++
                  [new_event_row
                    (writer_insert_events db.events RaceEnv.quiet.event_rows)
                    source x t d u fu now] }
            _ s (end_after_discard s en) loc hpair
        exact ⟨occ, hfind, hend, hloc, haddr⟩
      | true =>
        cases hre : get_event
            { db with events :=
                writer_insert_events db.events RaceEnv.quiet.event_rows }
            source.id x with
        | some e =>
          rw [upsert_create_conflict_found ratio .quiet now db source x t d
            loc s en u fu e hs hen hres hsem hconf hre] at hok ⊢
          have heid : eid = e.id := by
            rw [occurrence_phase_res] at hok
            exact (Except.ok.inj hok).symm
          rw [heid]
          obtain ⟨occ, hfind, -, -, hend, hloc, haddr, -⟩ :=
            occurrence_phase_spec ratio
              { db with events :=
                  writer_insert_events db.events RaceEnv.quiet.event_rows }
              e.id s (end_after_discard s en) loc hpair
          exact ⟨occ, hfind, hend, hloc, haddr⟩
        | none =>
          rw [upsert_create_conflict_none ratio .quiet now db source x t d
            loc s en u fu hs hen hres hsem hconf hre] at hok
          cases hok

/-- On a run of challenge responses followed by a non-challenge network
error, the retry loop sleeps once per challenge and raises the network
error the moment it appears, with no further attempt. -/
theorem fetch_loop_net_error (responses : Nat → HttpResponse)
    (jitter : Nat → ℚ) (max_retries : Nat) (base_delay : ℚ) (msg : String) :
    ∀ i attempt sleeps, attempt + i ≤ max_retries →
      (∀ k, attempt ≤ k → k < attempt + i → responses k = .challenge) →
      responses (attempt + i) = .net_error msg →
      fetch_ics_loop responses jitter max_retries base_delay
          (1 + max_retries - attempt) attempt sleeps =
        ⟨.error (.request_error msg), attempt + i + 1,
          sleeps ++ (List.range i).map
            fun k => base_delay * 2 ^ (attempt + k) + jitter (attempt + k)⟩ := by
  intro i
  induction i with
  | zero =>
    intro attempt sleeps hle hch hnet
    rw [show 1 + max_retries - attempt = (max_retries - attempt) + 1 by omega]
    unfold fetch_ics_loop
    rw [Nat.add_zero] at hnet
    rw [hnet]
    simp
  | succ n ih =>
    intro attempt sleeps hle hch hnet
    rw [show 1 + max_retries - attempt = (max_retries - attempt) + 1 by omega]
    unfold fetch_ics_loop
    rw [hch attempt le_rfl (by omega)]
    simp only
    rw [if_pos (show attempt < max_retries by omega)]
    rw [show max_retries - attempt = 1 + max_retries - (attempt + 1) by omega]
    rw [ih (attempt + 1) (sleeps ++ [base_delay * 2 ^ attempt + jitter attempt])
      (by omega) (fun k hk1 hk2 => hch k (by omega) (by omega))
      (by rw [show attempt + 1 + n = attempt + (n + 1) by omega]; exact hnet)]
    have hsl :
        (sleeps ++ [base_delay * 2 ^ attempt + jitter attempt]) ++
            (List.range n).map
              (fun k => base_delay * 2 ^ (attempt + 1 + k) +
                jitter (attempt + 1 + k)) =
          sleeps ++ (List.range (n + 1)).map
            (fun k => base_delay * 2 ^ (attempt + k) + jitter (attempt + k)) := by

      rw [List.range_succ_eq_map, List.map_cons, List.map_map,
        List.append_assoc]
      refine congrArg (sleeps ++ ·) ?_
      refine congrArg₂ List.cons (by rw [Nat.add_zero]) ?_
      refine List.map_congr_left fun k _ => ?_
      rw [show attempt + 1 + k = attempt + Nat.succ k by omega]
      rfl
    rw [hsl, show attempt + 1 + n + 1 = attempt + (n + 1) + 1 by omega]

theorem min_by_id_step_cases (acc : Option EventRow) (hd : EventRow) :
    (match acc with
      | none => some hd
      | some a => if hd.id < a.id then some hd else some a) = some hd ∨
    (match acc with
      | none => some hd
      | some a => if hd.id < a.id then some hd else some a) = acc := by
  cases acc with
  | none => exact Or.inl rfl
  | some a =>
    dsimp only
    by_cases hlt : hd.id < a.id
    · rw [if_pos hlt]; exact Or.inl rfl
    · rw [if_neg hlt]; exact Or.inr rfl

theorem min_by_id_mem {e : EventRow} :
    ∀ {l : List EventRow} (acc : Option EventRow),
      l.foldl
        (fun acc e =>
          match acc with
          | none => some e
          | some a => if e.id < a.id then some e else some a)
        acc = some e →
      acc = some e ∨ e ∈ l := by
  intro l
  induction l with
  | nil => intro acc h; exact Or.inl h
  | cons hd tl ih =>
    intro acc h
    rw [List.foldl_cons] at h
    rcases ih _ h with hacc | hmem
    · rcases min_by_id_step_cases acc hd with hcase | hcase
      · rw [hcase] at hacc
        injection hacc with he
        exact Or.inr (he ▸ List.mem_cons_self hd tl)
      · rw [hcase] at hacc
        exact Or.inl hacc
    · exact Or.inr (List.mem_cons_of_mem hd hmem)

/-- A semantic-key hit is a row of this store, restricted to the same
source, whose SQL-normalised title equals the incoming title key and which
has an occurrence at exactly the incoming start. -/
theorem get_event_by_semantic_key_spec {db : DB} {sid : Nat} {t : String}
    {s : PyDateTime} {e : EventRow}
    (h : get_event_by_semantic_key db sid t s = some e) :
    e ∈ db.events ∧ e.source_id = sid ∧
    sql_title_key e.title = normalize_title_key t ∧
    ∃ occ ∈ db.occurrences, occ.event_id = e.id ∧
      occ.start_datetime_utc = s := by
  simp only [get_event_by_semantic_key] at h
  split at h
  · cases h
  · unfold min_by_id at h
    rcases min_by_id_mem none h with hacc | hmem
    · cases hacc
    · rw [List.mem_filter] at hmem
      obtain ⟨hmem, hpred⟩ := hmem
      simp only [Bool.and_eq_true, decide_eq_true_eq, List.any_eq_true] at hpred
      obtain ⟨⟨hsid, htit⟩, occ, hoccmem, hocc1, hocc2⟩ := hpred
      exact ⟨hmem, hsid, htit, occ, hoccmem, hocc1, hocc2⟩

/-! ## C4 — resolution order and external_id backfill -/

/-- C4: resolution tries the exact `(source_id, external_id)` match first —
when it hits, that row is the one returned, whatever the semantic table
holds; only when it misses is the semantic
`(source_id, normalized title, start)` match consulted, which is
restricted to rows of the same source; and when the semantically matched
event still has a null `external_id`, the incoming identifier is
backfilled onto it. -/
theorem C4_resolution_order_and_backfill (ratio : String → String → ℚ)
    (race : RaceEnv) (now : PyDateTime) (db : DB) (source : SourceRow)
    (x t : String) (d loc : Option String) (s : PyDateTime)
    (en : Option PyDateTime) (u fu : Option String)
    (hs : s.aware = true) (hen : end_is_naive en = false) :
    (∀ e, get_event db source.id x = some e →
      (upsert_event_and_occurrence ratio race now db source x t d loc s en
        u fu).res = .ok e.id) ∧
    (∀ e, get_event db source.id x = none →
      get_event_by_semantic_key db source.id t s = some e →
      (upsert_event_and_occurrence ratio race now db source x t d loc s en
          u fu).res = .ok e.id ∧
      (upsert_event_and_occurrence ratio race now db source x t d loc s en
          u fu).db.events =
        update_event_row db.events e.id (updated_event e x t d u fu now) ∧
      (e.external_id = none →
        (updated_event e x t d u fu now).external_id = some x) ∧
      e.source_id = source.id) := by
  constructor
  · intro e hres
    rw [upsert_found ratio race now db source x t d loc s en u fu e hs hen
      hres]
    exact occurrence_phase_res ..
  · intro e h0 hsem
    rw [upsert_semantic ratio race now db source x t d loc s en u fu e hs
      hen h0 hsem]
    refine ⟨occurrence_phase_res .., (occurrence_phase_events ..).1, ?_,
      (get_event_by_semantic_key_spec hsem).2.1⟩
    intro hnone
    simp [updated_event, hnone]

/-- C4 witness: an incoming sighting with a fresh identifier and a title
that normalises to the stored one at the same start resolves to the
identifier-less event 3 and backfills `NEW-ID` onto it. -/
theorem C4_witness :
    (upsert_event_and_occurrence ratio0 .quiet now_dt_fix db_sem_fix src_fix
        "NEW-ID" "trivia  night" none none T_fix none none none).res =
      .ok 3 ∧
    (upsert_event_and_occurrence ratio0 .quiet now_dt_fix db_sem_fix src_fix
        "NEW-ID" "trivia  night" none none T_fix none none none).db.events =
      update_event_row db_sem_fix.events 3
        (updated_event sem_event_fix "NEW-ID" "trivia  night" none none
          none now_dt_fix) ∧
    (updated_event sem_event_fix "NEW-ID" "trivia  night" none none none
      now_dt_fix).external_id = some "NEW-ID" := by
  have h := (C4_resolution_order_and_backfill ratio0 .quiet now_dt_fix
    db_sem_fix src_fix "NEW-ID" "trivia  night" none none T_fix none none
    none rfl rfl).2 sem_event_fix (by decide) (by decide)
  exact ⟨h.1, h.2.1, h.2.2.1 rfl⟩

/-! ## C2 — race recovery semantics -/

/-- C2 counterexample: a concurrent writer inserts `(source 1, "X")` with
title `writer title` just before the engine's insert flush; the engine
rolls back, re-reads the row by its natural key and returns it with no
error — but the claimed fall-through to update semantics never happens:
the stored title stays the writer's (`mine` is not written) and last-seen
stays unrefreshed. -/
theorem C2_counterexample :
    race_call_fix.res = .ok 50 ∧
    race_call_fix.db.events.map EventRow.title = ["writer title"] ∧
    ¬ race_call_fix.db.events.map EventRow.title = ["mine"] ∧
    race_call_fix.db.events.map EventRow.last_seen_at = [none] := by
  exact ⟨by decide, by decide, by decide, by decide⟩

/-- C2 (amended): on an event-insert race, the engine rolls back the
pending insert, re-reads by `(source_id, external_id)` and continues with
the re-read row *without* refreshing its fields, surfacing no error; on an
occurrence-insert race it rolls back, re-reads by `(event_id, start)` and
does fall through to update semantics, overwriting end, location, address
and venue on the re-read row, surfacing no error. -/
theorem C2_race_recovery (ratio : String → String → ℚ) (race : RaceEnv)
    (now : PyDateTime) (db : DB) (source : SourceRow) (x t : String)
    (d loc : Option String) (s : PyDateTime) (en : Option PyDateTime)
    (u fu : Option String)
    (hs : s.aware = true) (hen : end_is_naive en = false) :
    (∀ e, get_event db source.id x = none →
      get_event_by_semantic_key db source.id t s = none →
      event_insert_conflict (writer_insert_events db.events race.event_rows)
        (new_event_row (writer_insert_events db.events race.event_rows)
          source x t d u fu now) = true →
      get_event
        { db with events := writer_insert_events db.events race.event_rows }
        source.id x = some e →
      (upsert_event_and_occurrence ratio race now db source x t d loc s en
        u fu).res = .ok e.id ∧
      (upsert_event_and_occurrence ratio race now db source x t d loc s en
        u fu).db.events = writer_insert_events db.events race.event_rows) ∧
    (∀ dbo ev_id en2 loc2 occ,
      get_occurrence dbo ev_id s = none →
      occ_insert_conflict (writer_insert_occs dbo.occurrences race.occ_rows)
        (new_occ_row ratio dbo (writer_insert_occs dbo.occurrences
          race.occ_rows) ev_id s en2 loc2) = true →
      get_occurrence
        { dbo with occurrences :=
            writer_insert_occs dbo.occurrences race.occ_rows }
        ev_id s = some occ →
      (occurrence_phase ratio race dbo ev_id s en2 loc2).res = .ok ev_id ∧
      (occurrence_phase ratio race dbo ev_id s en2 loc2).db.occurrences =
        update_occ_row (writer_insert_occs dbo.occurrences race.occ_rows)
          occ.id
          { occ with
            end_datetime_utc := en2, location_text := loc2,
            address_text := extract_address loc2,
            venue_id := resolve_venue_id ratio dbo loc2 }) := by
  constructor
  · intro e hres0 hsem hconf hre
    rw [upsert_create_conflict_found ratio race now db source x t d loc s
      en u fu e hs hen hres0 hsem hconf hre]
    exact ⟨occurrence_phase_res .., (occurrence_phase_events ..).1⟩
  · intro dbo ev_id en2 loc2 occ hocc hconf hre
    simp only [new_occ_row] at hconf
    constructor <;>
      simp only [occurrence_phase, hocc, hconf, hre, if_true]

/-- C2 witness: against writer interference at both flush points, the
upsert recovers onto the writer's event row 50 without refreshing it, and
the racing occurrence insert recovers by overwriting the writer's
occurrence 70 with the incoming display fields. -/
theorem C2_witness :
    (upsert_event_and_occurrence ratio0 race2_fix now_dt_fix db_empty
        src_fix "X" "mine" (some "mine description") none T_fix none none
        none).res = .ok 50 ∧
    (upsert_event_and_occurrence ratio0 race2_fix now_dt_fix db_empty
        src_fix "X" "mine" (some "mine description") none T_fix none none
        none).db.events = [writer_row_fix] ∧
    (occurrence_phase ratio0 race2_fix db_empty 50 T_fix none none).res =
      .ok 50 ∧
    (occurrence_phase ratio0 race2_fix db_empty 50 T_fix none
        none).db.occurrences =
      [{ occ_w_fix with
          end_datetime_utc := none, location_text := none,
          address_text := none, venue_id := none }] := by
  have h := C2_race_recovery ratio0 race2_fix now_dt_fix db_empty src_fix
    "X" "mine" (some "mine description") none T_fix none none none rfl rfl
  have ha := h.1 writer_row_fix (by decide) (by decide) (by decide)
    (by decide)
  have hb := h.2 db_empty 50 none none occ_w_fix (by decide) (by decide)
    (by decide)
  refine ⟨ha.1, ?_, hb.1, ?_⟩
  · rw [ha.2]; decide
  · rw [hb.2]; decide

/-! ## C1 — storage uniqueness invariant -/

theorem event_eq_of_mem_of_id {evs : List EventRow}
    (hpair : evs.Pairwise event_distinct) :
    ∀ {a b : EventRow}, a ∈ evs → b ∈ evs → a.id = b.id → a = b := by
  induction evs with
  | nil => intro a b ha _ _; cases ha
  | cons h tl ih =>
    intro a b ha hb hid
    rcases List.mem_cons.mp ha with rfl | ha2 <;>
      rcases List.mem_cons.mp hb with rfl | hb2
    · rfl
    · exact absurd hid ((List.pairwise_cons.mp hpair).1 b hb2).1
    · exact absurd hid.symm ((List.pairwise_cons.mp hpair).1 a ha2).1
    · exact ih (List.pairwise_cons.mp hpair).2 ha2 hb2 hid

theorem occ_eq_of_mem_of_id {occs : List OccurrenceRow}
    (hpair : occs.Pairwise occ_distinct) :
    ∀ {a b : OccurrenceRow}, a ∈ occs → b ∈ occs → a.id = b.id → a = b := by
  induction occs with
  | nil => intro a b ha _ _; cases ha
  | cons h tl ih =>
    intro a b ha hb hid
    rcases List.mem_cons.mp ha with rfl | ha2 <;>
      rcases List.mem_cons.mp hb with rfl | hb2
    · rfl
    · exact absurd hid ((List.pairwise_cons.mp hpair).1 b hb2).1
    · exact absurd hid.symm ((List.pairwise_cons.mp hpair).1 a ha2).1
    · exact ih (List.pairwise_cons.mp hpair).2 ha2 hb2 hid

/-- The UPDATE the event branch performs keeps the uniqueness invariant:
the id is unchanged and the key either stays what it was or (backfill) is
a key no other row holds. -/
theorem pairwise_update_event {evs : List EventRow} {e e' : EventRow}
    (hpair : evs.Pairwise event_distinct) (hmem : e ∈ evs)
    (hid : e'.id = e.id) (hsrc : e'.source_id = e.source_id)
    (hkey : e'.external_id = e.external_id ∨
      ∀ o ∈ evs, ¬(o.source_id = e'.source_id ∧
        o.external_id = e'.external_id ∧ e'.external_id ≠ none)) :
    (update_event_row evs e.id e').Pairwise event_distinct := by
  unfold update_event_row
  rw [List.pairwise_map]
  refine hpair.imp_of_mem ?_
  intro a b ha hb hr
  by_cases haid : a.id = e.id <;> by_cases hbid : b.id = e.id
  · exact absurd (haid.trans hbid.symm) hr.1
  · rw [if_pos haid, if_neg hbid]
    have hae : a = e := event_eq_of_mem_of_id hpair ha hmem haid
    subst hae
    constructor
    · rw [hid]; exact hr.1
    · rcases hkey with hsame | hno
      · rw [hsrc, hsame]
        exact fun hcon => hr.2 hcon
      · intro ⟨h1, h2, h3⟩
        exact hno b hb ⟨h1.symm, h2.symm, h3⟩
  · rw [if_neg haid, if_pos hbid]
    have hbe : b = e := event_eq_of_mem_of_id hpair hb hmem hbid
    subst hbe
    constructor
    · rw [hid]; exact hr.1
    · rcases hkey with hsame | hno
      · rw [hsrc, hsame]
        exact fun hcon => hr.2 hcon
      · intro ⟨h1, h2, h3⟩
        exact hno a ha ⟨h1, h2, h2 ▸ h3⟩
  · rw [if_neg haid, if_neg hbid]
    exact hr

/-- The UPDATE the occurrence branch performs never changes id or key. -/
theorem pairwise_update_occ {occs : List OccurrenceRow}
    {occ occ' : OccurrenceRow}
    (hpair : occs.Pairwise occ_distinct) (hmem : occ ∈ occs)
    (hid : occ'.id = occ.id) (hev : occ'.event_id = occ.event_id)
    (hst : occ'.start_datetime_utc = occ.start_datetime_utc) :
    (update_occ_row occs occ.id occ').Pairwise occ_distinct := by
  unfold update_occ_row
  rw [List.pairwise_map]
  refine hpair.imp_of_mem ?_
  intro a b ha hb hr
  by_cases haid : a.id = occ.id <;> by_cases hbid : b.id = occ.id
  · exact absurd (haid.trans hbid.symm) hr.1
  · rw [if_pos haid, if_neg hbid]
    have hae : a = occ := occ_eq_of_mem_of_id hpair ha hmem haid
    subst hae
    exact ⟨by rw [hid]; exact hr.1, by rw [hev, hst]; exact hr.2⟩
  · rw [if_neg haid, if_pos hbid]
    have hbe : b = occ := occ_eq_of_mem_of_id hpair hb hmem hbid
    subst hbe
    exact ⟨by rw [hid]; exact hr.1, by rw [hev, hst]; exact hr.2⟩
  · rw [if_neg haid, if_neg hbid]
    exact hr

/-- A constraint-checked event insert keeps the invariant. -/
theorem pairwise_append_event {evs : List EventRow} {e : EventRow}
    (hpair : evs.Pairwise event_distinct)
    (hok : event_insert_conflict evs e = false) :
    (evs ++ [e]).Pairwise event_distinct := by
  rw [List.pairwise_append]
  refine ⟨hpair, List.pairwise_singleton _ _, ?_⟩
  intro a ha b hb
  rw [List.mem_singleton] at hb
  subst hb
  rw [Bool.eq_false_iff] at hok
  constructor
  · intro hid
    exact hok (by
      simp only [event_insert_conflict, List.any_eq_true, Bool.or_eq_true,
        Bool.and_eq_true, decide_eq_true_eq]
      exact ⟨a, ha, Or.inl (Or.inl hid)⟩)
  · intro ⟨h1, h2, h3⟩
    exact hok (by
      simp only [event_insert_conflict, List.any_eq_true, Bool.or_eq_true,
        Bool.and_eq_true, decide_eq_true_eq]
      exact ⟨a, ha, Or.inr ⟨⟨h1, h2⟩, h2 ▸ h3⟩⟩)

/-- A constraint-checked occurrence insert keeps the invariant. -/
theorem pairwise_append_occ {occs : List OccurrenceRow} {o : OccurrenceRow}
    (hpair : occs.Pairwise occ_distinct)
    (hok : occ_insert_conflict occs o = false) :
    (occs ++ [o]).Pairwise occ_distinct := by
  rw [List.pairwise_append]
  refine ⟨hpair, List.pairwise_singleton _ _, ?_⟩
  intro a ha b hb
  rw [List.mem_singleton] at hb
  subst hb
  rw [Bool.eq_false_iff] at hok
  constructor
  · intro hid
    exact hok (by
      simp only [occ_insert_conflict, List.any_eq_true, Bool.or_eq_true,
        Bool.and_eq_true, decide_eq_true_eq]
      exact ⟨a, ha, Or.inl hid⟩)
  · intro ⟨h1, h2⟩
    exact hok (by
      simp only [occ_insert_conflict, List.any_eq_true, Bool.or_eq_true,
        Bool.and_eq_true, decide_eq_true_eq]
      exact ⟨a, ha, Or.inr ⟨h1, h2⟩⟩)

/-- Writer event inserts, each constraint-checked, keep the invariant. -/
theorem writer_insert_events_inv {evs : List EventRow}
    (rows : List EventRow) (hpair : evs.Pairwise event_distinct) :
    (writer_insert_events evs rows).Pairwise event_distinct := by
  induction rows generalizing evs with
  | nil => exact hpair
  | cons r tl ih =>
    unfold writer_insert_events
    rw [List.foldl_cons]
    cases hc : event_insert_conflict evs r with
    | true =>
      rw [if_pos rfl]
      exact ih hpair
    | false =>
      rw [if_neg Bool.false_ne_true]
      exact ih (pairwise_append_event hpair hc)

/-- Writer occurrence inserts, each constraint-checked, keep the
invariant. -/
theorem writer_insert_occs_inv {occs : List OccurrenceRow}
    (rows : List OccurrenceRow) (hpair : occs.Pairwise occ_distinct) :
    (writer_insert_occs occs rows).Pairwise occ_distinct := by
  induction rows generalizing occs with
  | nil => exact hpair
  | cons r tl ih =>
    unfold writer_insert_occs
    rw [List.foldl_cons]
    cases hc : occ_insert_conflict occs r with
    | true =>
      rw [if_pos rfl]
      exact ih hpair
    | false =>
      rw [if_neg Bool.false_ne_true]
      exact ih (pairwise_append_occ hpair hc)

/-- The occurrence half keeps the occurrence uniqueness invariant, under
any writer interference. -/
theorem occurrence_phase_inv (ratio : String → String → ℚ) (race : RaceEnv)
    (db : DB) (ev_id : Nat) (s : PyDateTime) (en : Option PyDateTime)
    (loc : Option String)
    (hpair : db.occurrences.Pairwise occ_distinct) :
    (occurrence_phase ratio race db ev_id s en
      loc).db.occurrences.Pairwise occ_distinct := by
  unfold occurrence_phase
  cases hocc : get_occurrence db ev_id s with
  | some occ =>
    exact pairwise_update_occ hpair (List.mem_of_find?_eq_some hocc) rfl rfl
      rfl
  | none =>
    simp only
    have hw := writer_insert_occs_inv race.occ_rows hpair
    split
    · cases hre : get_occurrence
          { db with
            occurrences := writer_insert_occs db.occurrences race.occ_rows }
          ev_id s with
      | some occ2 =>
        exact pairwise_update_occ hw (List.mem_of_find?_eq_some hre) rfl rfl
          rfl
      | none => exact hw
    · next hconf =>
      exact pairwise_append_occ hw (Bool.eq_false_iff.mpr hconf)

/-- One upsert call keeps the full storage invariant, under any writer
interference at its flush points. -/
theorem upsert_inv (ratio : String → String → ℚ) (race : RaceEnv)
    (now : PyDateTime) (db : DB) (source : SourceRow) (x t : String)
    (d loc : Option String) (s : PyDateTime) (en : Option PyDateTime)
    (u fu : Option String) (hinv : DBInv db) :
    DBInv (upsert_event_and_occurrence ratio race now db source x t d loc s
      en u fu).db := by
  obtain ⟨hev, hocc⟩ := hinv
  cases hsa : s.aware with
  | false =>
    simp only [upsert_event_and_occurrence, hsa, Bool.not_false, if_true]
    exact ⟨hev, hocc⟩
  | true =>
    cases hne : end_is_naive en with
    | true =>
      simp only [upsert_event_and_occurrence, hsa, Bool.not_true,
        Bool.false_eq_true, if_false, hne, if_true]
      exact ⟨hev, hocc⟩
    | false =>
      cases hres : get_event db source.id x with
      | some e =>
        rw [upsert_found ratio race now db source x t d loc s en u fu e hsa
          hne hres]
        constructor
        · rw [(occurrence_phase_events ..).1]
          have hp := List.find?_some hres
          simp only [Bool.and_eq_true, decide_eq_true_eq] at hp
          exact pairwise_update_event hev (List.mem_of_find?_eq_some hres)
            rfl rfl (Or.inl (by simp [updated_event, hp.2]))
        · exact occurrence_phase_inv ratio race _ e.id s
            (end_after_discard s en) loc hocc
      | none =>
        cases hsem : get_event_by_semantic_key db source.id t s with
        | some e =>
          rw [upsert_semantic ratio race now db source x t d loc s en u fu
            e hsa hne hres hsem]
          obtain ⟨hmem, hsid, -, -⟩ := get_event_by_semantic_key_spec hsem
          constructor
          · rw [(occurrence_phase_events ..).1]
            refine pairwise_update_event hev hmem rfl rfl ?_
            cases hext : e.external_id with
            | some xx => exact Or.inl (by simp [updated_event, hext])
            | none =>
              refine Or.inr fun o ho hcon => ?_
              have hpredf := List.find?_eq_none.mp hres o ho
              simp only [Bool.and_eq_true, decide_eq_true_eq, not_and] at hpredf
              have h1 : o.source_id = source.id := by
                have := hcon.1
                simp only [updated_event] at this
                rw [this, hsid]
              have h2 : o.external_id = some x := by
                have := hcon.2.1
                simp only [updated_event, hext] at this
                exact this
              exact hpredf h1 h2
          · exact occurrence_phase_inv ratio race _ e.id s
              (end_after_discard s en) loc hocc
        | none =>
          have hwev := writer_insert_events_inv race.event_rows hev
          cases hconf : event_insert_conflict
              (writer_insert_events db.events race.event_rows)
              (new_event_row (writer_insert_events db.events race.event_rows)
                source x t d u fu now) with
          | false =>
            rw [upsert_create_ok ratio race now db source x t d loc s en u
              fu hsa hne hres hsem hconf]
            constructor
            · rw [(occurrence_phase_events ..).1]
              exact pairwise_append_event hwev hconf
            · exact occurrence_phase_inv ratio race _ _ s
                (end_after_discard s en) loc hocc
          | true =>
            cases hre : get_event
                { db with
                  events := writer_insert_events db.events race.event_rows }
                source.id x with
            | some e =>
              rw [upsert_create_conflict_found ratio race now db source x t
                d loc s en u fu e hsa hne hres hsem hconf hre]
              exact ⟨by rw [(occurrence_phase_events ..).1]; exact hwev,
                occurrence_phase_inv ratio race _ e.id s
                  (end_after_discard s en) loc hocc⟩
            | none =>
              rw [upsert_create_conflict_none ratio race now db source x t d
                loc s en u fu hsa hne hres hsem hconf hre]
              exact ⟨hwev, hocc⟩

/-- One engine step keeps the storage invariant. -/
theorem apply_step_inv (ratio : String → String → ℚ) (db : DB)
    (st : EngineStep) (hinv : DBInv db) :
    DBInv (apply_step ratio db st) := by
  cases st with
  | upsert_call race now source x t d loc s en u fu =>
    exact upsert_inv ratio race now db source x t d loc s en u fu hinv
  | writer_event e =>
    exact ⟨writer_insert_events_inv [e] hinv.1, hinv.2⟩
  | writer_occ o =>
    exact ⟨hinv.1, writer_insert_occs_inv [o] hinv.2⟩

/-- Any step sequence keeps the storage invariant. -/
theorem run_steps_inv (ratio : String → String → ℚ)
    (steps : List EngineStep) :
    ∀ db, DBInv db → DBInv (run_steps ratio db steps) := by
  induction steps with
  | nil => exact fun db h => h
  | cons st tl ih =>
    intro db h
    exact ih _ (apply_step_inv ratio db st h)

/-- C1: across any sequence of `upsert_event_and_occurrence` calls — in
any order, with repeated sightings, with concurrent writer inserts at the
flush points and between calls — a store satisfying the uniqueness
invariant keeps it: at most one Event row per `(source_id, external_id)`
pair with non-null `external_id`, and at most one EventOccurrence row per
`(event_id, start_datetime_utc)` pair. -/
theorem C1_store_uniqueness (ratio : String → String → ℚ) (db : DB)
    (steps : List EngineStep) (hinv : DBInv db) :
    (run_steps ratio db steps).events.Pairwise (fun a b =>
      ¬(a.source_id = b.source_id ∧ a.external_id = b.external_id ∧
        a.external_id ≠ none)) ∧
    (run_steps ratio db steps).occurrences.Pairwise (fun a b =>
      ¬(a.event_id = b.event_id ∧
        a.start_datetime_utc = b.start_datetime_utc)) := by
  have h := run_steps_inv ratio steps db hinv
  exact ⟨h.1.imp fun hr => hr.2, h.2.imp fun hr => hr.2⟩

/-- C1 witness: a concrete four-step trace from the empty store — an
upsert, a conflicting writer insert, a racing repeat of the same sighting,
and a conflicting writer occurrence — keeps both uniqueness properties. -/
theorem C1_witness :
    (run_steps ratio0 db_empty steps_fix).events.Pairwise (fun a b =>
      ¬(a.source_id = b.source_id ∧ a.external_id = b.external_id ∧
        a.external_id ≠ none)) ∧
    (run_steps ratio0 db_empty steps_fix).occurrences.Pairwise (fun a b =>
      ¬(a.event_id = b.event_id ∧
        a.start_datetime_utc = b.start_datetime_utc)) :=
  C1_store_uniqueness ratio0 db_empty steps_fix
    ⟨List.Pairwise.nil, List.Pairwise.nil⟩

/-! ## C3 — rollup dedup within one orchestration run -/

theorem semantic_key_empty (occs : List OccurrenceRow) (vs : List VenueRow)
    (als : List VenueAliasRow) (sid : Nat) (t : String) (s : PyDateTime) :
    get_event_by_semantic_key ⟨[], occs, vs, als⟩ sid t s = none := by
  simp only [get_event_by_semantic_key]
  split <;> rfl

theorem occurrence_phase_no_occs (ratio : String → String → ℚ)
    (evs : List EventRow) (vs : List VenueRow) (als : List VenueAliasRow)
    (ev_id : Nat) (s : PyDateTime) (en : Option PyDateTime)
    (loc : Option String) :
    occurrence_phase ratio .quiet ⟨evs, [], vs, als⟩ ev_id s en loc =
      ⟨⟨evs, [new_occ_row ratio ⟨evs, [], vs, als⟩ [] ev_id s en loc], vs,
        als⟩, .ok ev_id⟩ := by
  simp only [occurrence_phase, get_occurrence, List.find?_nil, RaceEnv.quiet,
    writer_insert_occs, List.foldl_nil, occ_insert_conflict, List.any_nil,
    Bool.false_eq_true, if_false, new_occ_row, List.nil_append, List.map_nil]

/-- An upsert against an empty store creates the event and its occurrence. -/
theorem upsert_on_empty (ratio : String → String → ℚ) (now : PyDateTime)
    (vs : List VenueRow) (als : List VenueAliasRow) (source : SourceRow)
    (x t : String) (d loc : Option String) (s : PyDateTime)
    (en : Option PyDateTime) (u fu : Option String)
    (hs : s.aware = true) (hen : end_is_naive en = false) :
    upsert_event_and_occurrence ratio .quiet now ⟨[], [], vs, als⟩ source
        x t d loc s en u fu =
      ⟨⟨[new_event_row [] source x t d u fu now],
        [new_occ_row ratio
          ⟨[new_event_row [] source x t d u fu now], [], vs, als⟩ []
          (new_event_row [] source x t d u fu now).id s
          (end_after_discard s en) loc], vs, als⟩,
        .ok (new_event_row [] source x t d u fu now).id⟩ := by
  rw [upsert_create_ok ratio .quiet now ⟨[], [], vs, als⟩ source x t d loc
    s en u fu hs hen rfl (semantic_key_empty ..) rfl]
  rw [show writer_insert_events (DB.events ⟨[], [], vs, als⟩)
    RaceEnv.quiet.event_rows = ([] : List EventRow) from rfl]
  rw [show (([] : List EventRow) ++ [new_event_row [] source x t d u fu now])
    = [new_event_row [] source x t d u fu now] from rfl]
  exact occurrence_phase_no_occs ..

/-- Processing a per-item feed holding one event against the empty store:
the event and occurrence are created, its signature enters the in-run seen
set, and the feed records `ok` with one event ingested. -/
theorem process_feed_first (ratio : String → String → ℚ) (now : PyDateTime)
    (vs : List VenueRow) (als : List VenueAliasRow) (source : SourceRow)
    (f1 : SourceFeedRow) (evA : ParsedICalEvent)
    (hA : evA.start_utc.aware = true)
    (hA2 : end_is_naive evA.end_utc = false) :
    process_feed ratio now true source
      ⟨⟨[], [], vs, als⟩, [], 0, 0, 0, []⟩ ⟨f1, .fetched [evA]⟩ =
      ⟨⟨[new_event_row [] source evA.uid evA.summary evA.description evA.url
          f1.page_url now],
        [new_occ_row ratio
          ⟨[new_event_row [] source evA.uid evA.summary evA.description
            evA.url f1.page_url now], [], vs, als⟩ []
          (new_event_row [] source evA.uid evA.summary evA.description
            evA.url f1.page_url now).id evA.start_utc
          (end_after_discard evA.start_utc evA.end_utc) evA.location],
        vs, als⟩,
       [make_signature (some evA.summary) evA.start_utc], 1, 0, 0,
       [⟨f1.id, "ok", none, some 1, some 1⟩]⟩ := by
  simp only [process_feed, build_existing_signature_map, List.flatMap_nil,
    List.filterMap_nil, List.foldl_nil, if_true, process_parsed_events,
    List.contains_nil, Bool.false_eq_true, and_false, if_false,
    List.find?_nil, Option.map_none', upsert_on_empty ratio now vs als source
      evA.uid evA.summary evA.description evA.location evA.start_utc
      evA.end_utc evA.url f1.page_url hA hA2, List.nil_append,
    List.length_singleton, Nat.zero_add]

/-- Processing a feed whose two items both carry an already-seen in-run
signature: both are skipped, nothing is ingested or changed, and the feed
records `ok` with two parsed and zero ingested. -/
theorem process_feed_all_skipped (ratio : String → String → ℚ)
    (now : PyDateTime) (source : SourceRow) (f2 : SourceFeedRow)
    (evB evC : ParsedICalEvent) (st : RunState)
    (hB : st.seen_signatures.contains
      (make_signature (some evB.summary) evB.start_utc) = true)
    (hC : st.seen_signatures.contains
      (make_signature (some evC.summary) evC.start_utc) = true) :
    process_feed ratio now true source st ⟨f2, .fetched [evB, evC]⟩ =
      { st with records := st.records ++
        [⟨f2.id, "ok", none, some 2, some 0⟩] } := by
  simp only [process_feed, if_true, process_parsed_events]
  rw [if_pos ⟨trivial, hB⟩, if_pos ⟨trivial, hC⟩]
  rfl

/-- C3 counterexample: in the one-run scenario, the rollup sighting does
*not* update event E — it is skipped by the in-run signature dedup, so E's
description stays the per-item one and the rollup feed ingests zero — even
though the no-duplicate and no-double-count parts do hold. -/
theorem C3_counterexample :
    rollup_run_fix.1.db.events.map EventRow.description =
      [some "from per-item"] ∧
    ¬ rollup_run_fix.1.db.events.map EventRow.description =
      [some "from rollup"] ∧
    rollup_run_fix.1.db.events.length = 1 ∧
    rollup_run_fix.1.records.map FeedRecord.events_ingested =
      [some 1, some 0] := by
  exact ⟨by decide, by decide, by decide, by decide⟩

/-- C3 (amended): in one run over a Big Top source, the per-item feed
creates event E and records its `(normalized title, start)` signature in
the in-run seen set; the later rollup items with that signature are
skipped entirely — no duplicate Event row is created, E is left exactly as
the per-item sighting wrote it (not updated), and neither the rollup
sighting nor its in-feed repetition is counted in `events_ingested`. -/
theorem C3_rollup_items_skipped_in_run (ratio : String → String → ℚ)
    (now : PyDateTime) (vs : List VenueRow) (als : List VenueAliasRow)
    (source : SourceRow) (f1 f2 : SourceFeedRow)
    (evA evB evC : ParsedICalEvent)
    (h1 : is_bigtop_source source = true)
    (h2 : is_bigtop_rollup_feed f1 = false)
    (h3 : is_bigtop_rollup_feed f2 = true)
    (hA : evA.start_utc.aware = true)
    (hA2 : end_is_naive evA.end_utc = false)
    (hB : make_signature (some evB.summary) evB.start_utc =
      make_signature (some evA.summary) evA.start_utc)
    (hC : make_signature (some evC.summary) evC.start_utc =
      make_signature (some evA.summary) evA.start_utc) :
    (ingest_source_items ratio now ⟨[], [], vs, als⟩ source
        [⟨f1, .fetched [evA]⟩, ⟨f2, .fetched [evB, evC]⟩]).1.db.events =
      [new_event_row [] source evA.uid evA.summary evA.description evA.url
        f1.page_url now] ∧
    (ingest_source_items ratio now ⟨[], [], vs, als⟩ source
        [⟨f1, .fetched [evA]⟩, ⟨f2, .fetched [evB, evC]⟩]).2.events_ingested
      = 1 ∧
    (ingest_source_items ratio now ⟨[], [], vs, als⟩ source
        [⟨f1, .fetched [evA]⟩, ⟨f2, .fetched [evB, evC]⟩]).1.records =
      [⟨f1.id, "ok", none, some 1, some 1⟩,
       ⟨f2.id, "ok", none, some 2, some 0⟩] := by
  simp only [ingest_source_items, h1]
  rw [if_pos ⟨trivial, by simp⟩]
  simp only [prioritize_bigtop_inputs, List.filter_cons, List.filter_nil,
    h2, h3, Bool.not_true, Bool.not_false]
  simp only [if_true, Bool.false_eq_true, if_false, List.cons_append,
    List.nil_append, List.foldl_cons, List.foldl_nil]
  rw [process_feed_first ratio now vs als source f1 evA hA hA2]
  rw [process_feed_all_skipped ratio now source f2 evB evC _
    (by simp [hB]) (by simp [hC])]
  exact ⟨rfl, rfl, rfl⟩

/-- C3 witness: the fixture run — per-item `Trivia Night` then a rollup
feed repeating `trivia  night` twice at the same start — ends with the one
per-item event, one ingested in total, and a zero-ingested `ok` rollup
record. -/
theorem C3_witness :
    rollup_run_fix.1.db.events =
      [new_event_row [] src_fix "uid-A" "Trivia Night"
        (some "from per-item") none none now_dt_fix] ∧
    rollup_run_fix.2.events_ingested = 1 ∧
    rollup_run_fix.1.records =
      [⟨10, "ok", none, some 1, some 1⟩, ⟨11, "ok", none, some 2, some 0⟩] := by
  have h := C3_rollup_items_skipped_in_run ratio0 now_dt_fix [] [] src_fix
    per_item_feed_fix rollup_feed_fix evA_fix evB_fix evB_fix (by decide)
    (by decide) (by decide) rfl rfl (by decide) (by decide)
  exact h

/-! ## C10 — frame condition of the update branch -/

/-- C9: a naive `start_utc` (or naive non-null `end_utc`) raises
immediately, leaving the store untouched; an aware `end_utc` strictly
earlier than `start_utc` is not rejected — the call proceeds and the
stored occurrence has its end discarded to none. -/
theorem C9_naive_rejected_end_discarded (ratio : String → String → ℚ)
    (now : PyDateTime) (db : DB) (source : SourceRow) (x t : String)
    (d loc : Option String) (s : PyDateTime) (en : Option PyDateTime)
    (u fu : Option String)
    (hpair : db.occurrences.Pairwise fun a b => a.id ≠ b.id) :
    (s.aware = false →
      upsert_event_and_occurrence ratio .quiet now db source x t d loc s en
          u fu =
        ⟨db, .error .naive_start⟩) ∧
    (∀ e2, s.aware = true → en = some e2 → e2.aware = false →
      upsert_event_and_occurrence ratio .quiet now db source x t d loc s en
          u fu =
        ⟨db, .error .naive_end⟩) ∧
    (∀ e2 eid, s.aware = true → en = some e2 → e2.aware = true →
      e2.epoch < s.epoch →
      (upsert_event_and_occurrence ratio .quiet now db source x t d loc s en
        u fu).res = .ok eid →
      ∃ occ, get_occurrence
          (upsert_event_and_occurrence ratio .quiet now db source x t d loc
            s en u fu).db eid s = some occ ∧
        occ.end_datetime_utc = none) := by
  refine ⟨?_, ?_, ?_⟩
  · intro hnaive
    simp only [upsert_event_and_occurrence, hnaive, Bool.not_false, if_true]
  · intro e2 hs hsome hnaive
    subst hsome
    simp only [upsert_event_and_occurrence, hs, Bool.not_true,
      Bool.false_eq_true, if_false, end_is_naive, hnaive, Bool.not_false,
      if_true]
  · intro e2 eid hs hsome haware hlt hok
    have henb : end_is_naive en = false := by
      rw [hsome]; simp [end_is_naive, haware]
    obtain ⟨occ, hfind, hend, -, -⟩ :=
      upsert_occ_written ratio now db source x t d loc s en u fu eid hpair
        hs henb hok
    refine ⟨occ, hfind, ?_⟩
    rw [hend, hsome]
    simp [end_after_discard, hlt]

/-- C9 witness: a naive start raises; an aware end 100 seconds before the
aware start is stored with its end dropped. -/
theorem C9_witness :
    (upsert_event_and_occurrence ratio0 .quiet now_dt_fix db_empty src_fix
        "uid-1" "Title" none none ⟨1000, false⟩ none none none) =
      ⟨db_empty, .error .naive_start⟩ ∧
    ∃ occ, get_occurrence (upsert_event_and_occurrence ratio0 .quiet
        now_dt_fix db_empty src_fix "uid-1" "Title" none none T_fix
        (some ⟨900, true⟩) none none).db 1 T_fix = some occ ∧
      occ.end_datetime_utc = none := by
  have h1 := C9_naive_rejected_end_discarded ratio0 now_dt_fix db_empty
    src_fix "uid-1" "Title" none none ⟨1000, false⟩ none none none (by simp [db_empty])
  have h2 := C9_naive_rejected_end_discarded ratio0 now_dt_fix db_empty
    src_fix "uid-1" "Title" none none T_fix (some ⟨900, true⟩) none none
    (by simp [db_empty])
  exact ⟨h1.1 rfl, h2.2.2 ⟨900, true⟩ 1 rfl rfl rfl (by decide) (by decide)⟩

/-! ## C8 — sanitizer regression -/

/-- C8: sanitization is a purely textual pre-pass that deletes bogus
negative-date `DTEND` lines and empty `UNTIL=` parameters from `RRULE`
lines, and the calendar blob carrying the literal defective lines
`DTEND:-47120101T235959` and `RRULE:FREQ=WEEKLY;UNTIL=;BYDAY=TH` parses to
a non-empty occurrence list after sanitization but to zero occurrences if
sanitization is skipped. -/
theorem C8_sanitizer_regression :
    popmenu_blob.contains "DTEND:-47120101T235959" = true ∧
    popmenu_blob.contains "RRULE:FREQ=WEEKLY;UNTIL=;BYDAY=TH" = true ∧
    sanitize_popmenu_ical popmenu_blob =
      ["BEGIN:VCALENDAR", "VERSION:2.0", "BEGIN:VEVENT", "UID:popmenu-1",
       "SUMMARY:Trivia Thursday", "DTSTART:20260101T000000Z",
       "RRULE:FREQ=WEEKLY;BYDAY=TH", "END:VEVENT", "END:VCALENDAR"] ∧
    parse_ics true now_fix popmenu_blob ≠ [] ∧
    parse_ics false now_fix popmenu_blob = [] := by
  exact ⟨by decide, by decide, by decide, by decide, by decide⟩

/-! ## C5 — transient network errors are *not* retried -/

/-- C5 counterexample: a transient, non-challenge network failure on the
very first attempt makes `fetch_ics` give up after exactly one attempt
with zero backoff sleeps — the claimed retry loop never runs for it. -/
theorem C5_counterexample :
    fetch_ics (fun _ => .net_error "connection reset") (fun _ => 0) =
      ⟨.error (.request_error "connection reset"), 1, []⟩ ∧
    ¬ 2 ≤ (fetch_ics (fun _ => .net_error "connection reset")
        (fun _ => 0)).attempts := by
  exact ⟨by decide, by decide⟩

/-- C5 (amended): only anti-bot challenge responses are retried with the
exponential-backoff loop; a transient network error that is not a challenge
is raised immediately — after however many challenges preceded it, with no
further sleep or attempt — and the orchestrator records the failure as a
feed-level `error` status on the feed row. -/
theorem C5_net_error_immediate_feed_error
    (responses : Nat → HttpResponse) (jitter : Nat → ℚ)
    (max_retries : Nat) (base_delay : ℚ) (i : Nat) (msg : String)
    (hle : i ≤ max_retries)
    (hch : ∀ k, k < i → responses k = .challenge)
    (hnet : responses i = .net_error msg)
    (ratio : String → String → ℚ) (now : PyDateTime) (bt : Bool)
    (source : SourceRow) (st : RunState) (feed : SourceFeedRow) :
    fetch_ics responses jitter max_retries base_delay =
      ⟨.error (.request_error msg), i + 1,
        (List.range i).map fun k => base_delay * 2 ^ k + jitter k⟩ ∧
    process_feed ratio now bt source st ⟨feed, .failure msg⟩ =
      { st with
        errors := st.errors + 1
        records := st.records ++
          [{ feed_id := feed.id, status := "error", error := some msg,
             events_parsed := none, events_ingested := none }] } := by
  constructor
  · have h := fetch_loop_net_error responses jitter max_retries base_delay msg
      i 0 [] (by omega) (fun k _ hk => hch k (by omega))
      (by rw [Nat.zero_add]; exact hnet)
    simpa [fetch_ics] using h
  · rfl

/-- C5 witness: two challenges then a DNS failure — the loop sleeps twice
for the challenges (delays 2 and 4) and raises the network error on the
third attempt without retrying it; the orchestrator marks the feed
`error`. -/
theorem C5_witness :
    fetch_ics (fun k => if k < 2 then .challenge else .net_error "dns failure")
        (fun _ => 0) 3 2 =
      ⟨.error (.request_error "dns failure"), 3, [2, 4]⟩ ∧
    process_feed ratio0 now_dt_fix false src_fix
        ⟨db_empty, [], 0, 0, 0, []⟩ ⟨per_item_feed_fix, .failure "dns failure"⟩ =
      ⟨db_empty, [], 0, 1, 0,
        [{ feed_id := 10, status := "error", error := some "dns failure",
           events_parsed := none, events_ingested := none }]⟩ := by
  have h := C5_net_error_immediate_feed_error
    (fun k => if k < 2 then .challenge else .net_error "dns failure")
    (fun _ => 0) 3 2 2 "dns failure" (by omega)
    (fun k hk => by simp [hk]) (by decide) ratio0 now_dt_fix false src_fix
    ⟨db_empty, [], 0, 0, 0, []⟩ per_item_feed_fix
  refine ⟨?_, h.2⟩
  rw [h.1]
  norm_num [List.range_succ]

/-! ## C7 — uid requirement and recurrence window -/

/-- Starts produced by the weekly expansion stay inside the window. -/
theorem weekly_occurrences_window {start ws we t : Int}
    (h : t ∈ weekly_occurrences start ws we) : ws ≤ t ∧ t ≤ we := by
  unfold weekly_occurrences at h
  rw [List.mem_filter] at h
  have := h.2
  simp only [Bool.and_eq_true, decide_eq_true_eq] at this
  exact this

/-- Every occurrence the modelled expansion emits starts inside the
window. -/
theorem expand_block_window {block : List String} {ws we : Int}
    {occ : Int × Option Int} (h : occ ∈ expand_block block ws we) :
    ws ≤ occ.1 ∧ occ.1 ≤ we := by
  unfold expand_block at h
  split at h
  · cases h
  · split at h
    · cases h
    · next start heq =>
      simp only at h
      split at h
      · rw [List.mem_map] at h
        obtain ⟨t, ht, rfl⟩ := h
        exact weekly_occurrences_window ht
      · split at h
        · next hwin =>
          rw [List.mem_singleton] at h
          subst h
          simp only [Bool.and_eq_true, decide_eq_true_eq] at hwin
          exact hwin
        · cases h

/-- C7: every event returned by `parse_ics` carries a non-empty uid
(components without a stable identifier are dropped), and its occurrence
start lies within the bounded window
`[now - 1 day, now + expand_months * 30 days]`; the default
`expand_months` is 6. -/
theorem C7_parse_uid_nonempty_and_window (sanitize : Bool) (now : Int)
    (lines : List String) (months : Nat) (ev : ParsedICalEvent)
    (hmem : ev ∈ parse_ics sanitize now lines months) :
    ev.uid ≠ "" ∧
    now - 86400 ≤ ev.start_utc.epoch ∧
    ev.start_utc.epoch ≤ now + (months : Int) * 30 * 86400 ∧
    DEFAULT_EXPAND_MONTHS = 6 := by
  unfold parse_ics at hmem
  rw [List.mem_flatMap] at hmem
  obtain ⟨block, _, hin⟩ := hmem
  simp only at hin
  split at hin
  · cases hin
  · next huid =>
    rw [List.mem_map] at hin
    obtain ⟨occ, hocc, rfl⟩ := hin
    have hw := expand_block_window hocc
    exact ⟨huid, hw.1, hw.2, rfl⟩

/-- C7 witness: the first sanitized Popmenu occurrence has uid
`popmenu-1` (non-empty) and start `now` inside the window. -/
theorem C7_witness :
    ({ uid := "popmenu-1", summary := "Trivia Thursday",
       description := none, location := none,
       start_utc := ⟨1767225600, true⟩, end_utc := none, url := none,
       categories := [] } : ParsedICalEvent) ∈
        parse_ics true now_fix popmenu_blob ∧
    ("popmenu-1" : String) ≠ "" ∧
    now_fix - 86400 ≤ (1767225600 : Int) ∧
    (1767225600 : Int) ≤ now_fix + (6 : Nat) * 30 * 86400 := by
  have hmem :
      ({ uid := "popmenu-1", summary := "Trivia Thursday",
         description := none, location := none,
         start_utc := ⟨1767225600, true⟩, end_utc := none, url := none,
         categories := [] } : ParsedICalEvent) ∈
        parse_ics true now_fix popmenu_blob := by decide
  have h := C7_parse_uid_nonempty_and_window true now_fix popmenu_blob 6 _ hmem
  exact ⟨hmem, h.1, h.2.1, h.2.2.1⟩

/-! ## C6 — venue resolution layering and fuzzy threshold -/

theorem fuzzy_scan_of_all_below (norm : String) (ratio : String → String → ℚ)
    {cands : List (Nat × String)} (init : Option Nat × ℚ)
    (h : ∀ c ∈ cands, ratio norm c.2 < FUZZY_MATCH_THRESHOLD) :
    fuzzy_scan norm ratio cands init = init := by
  induction cands generalizing init with
  | nil => rfl
  | cons c tl ih =>
    have hc := h c (List.mem_cons_self c tl)
    unfold fuzzy_scan
    rw [List.foldl_cons]
    rw [if_neg (by rintro ⟨-, h2⟩; exact absurd h2 (not_le.mpr hc))]
    exact ih init fun d hd => h d (List.mem_cons_of_mem c hd)

theorem fuzzy_scan_snd_mono (norm : String) (ratio : String → String → ℚ)
    (cands : List (Nat × String)) (init : Option Nat × ℚ) :
    init.2 ≤ (fuzzy_scan norm ratio cands init).2 := by
  induction cands generalizing init with
  | nil => exact le_rfl
  | cons c tl ih =>
    unfold fuzzy_scan
    rw [List.foldl_cons]
    by_cases hcond :
        ratio norm c.2 > init.2 ∧ FUZZY_MATCH_THRESHOLD ≤ ratio norm c.2
    · rw [if_pos hcond]
      exact le_trans (le_of_lt hcond.1) (ih (some c.1, ratio norm c.2))
    · rw [if_neg hcond]
      exact ih init

theorem fuzzy_scan_ge_of_mem (norm : String) (ratio : String → String → ℚ)
    {cands : List (Nat × String)} (init : Option Nat × ℚ)
    {d : Nat × String} (hd : d ∈ cands)
    (hthr : FUZZY_MATCH_THRESHOLD ≤ ratio norm d.2) :
    ratio norm d.2 ≤ (fuzzy_scan norm ratio cands init).2 := by
  induction cands generalizing init with
  | nil => cases hd
  | cons c tl ih =>
    unfold fuzzy_scan
    rw [List.foldl_cons]
    rcases List.mem_cons.mp hd with rfl | hmem
    · by_cases hcond :
          ratio norm d.2 > init.2 ∧ FUZZY_MATCH_THRESHOLD ≤ ratio norm d.2
      · rw [if_pos hcond]
        exact fuzzy_scan_snd_mono norm ratio tl (some d.1, ratio norm d.2)
      · rw [if_neg hcond]
        have hle : ratio norm d.2 ≤ init.2 := by
          by_contra hgt
          exact hcond ⟨lt_of_not_le hgt, hthr⟩
        exact le_trans hle (fuzzy_scan_snd_mono norm ratio tl init)
    · by_cases hcond :
          ratio norm c.2 > init.2 ∧ FUZZY_MATCH_THRESHOLD ≤ ratio norm c.2
      · rw [if_pos hcond]; exact ih (some c.1, ratio norm c.2) hmem
      · rw [if_neg hcond]; exact ih init hmem

theorem fuzzy_scan_result (norm : String) (ratio : String → String → ℚ)
    {cands : List (Nat × String)} (init : Option Nat × ℚ) :
    fuzzy_scan norm ratio cands init = init ∨
    ∃ c ∈ cands, fuzzy_scan norm ratio cands init =
      (some c.1, ratio norm c.2) ∧
      FUZZY_MATCH_THRESHOLD ≤ ratio norm c.2 := by
  induction cands generalizing init with
  | nil => exact Or.inl rfl
  | cons c tl ih =>
    unfold fuzzy_scan
    rw [List.foldl_cons]
    by_cases hcond :
        ratio norm c.2 > init.2 ∧ FUZZY_MATCH_THRESHOLD ≤ ratio norm c.2
    · rw [if_pos hcond]
      rcases ih (some c.1, ratio norm c.2) with heq | ⟨d, hd, heq, hthr⟩
      · exact Or.inr ⟨c, List.mem_cons_self c tl, heq, hcond.2⟩
      · exact Or.inr ⟨d, List.mem_cons_of_mem c hd, heq, hthr⟩
    · rw [if_neg hcond]
      rcases ih init with heq | ⟨d, hd, heq, hthr⟩
      · exact Or.inl heq
      · exact Or.inr ⟨d, List.mem_cons_of_mem c hd, heq, hthr⟩

/-- When both deterministic layers miss, the resolver's answer is exactly
the fuzzy fold over aliases then venues. -/
theorem resolve_fuzzy_eq (ratio : String → String → ℚ) (db : DB)
    (t : String) (hb : pyStrip t ≠ "")
    (ha : db.venue_aliases.find?
      (fun x => x.alias_normalized = normalize_location t) = none)
    (hv : db.venues.find?
      (fun x => normalize_location x.name = normalize_location t) = none) :
    resolve_venue_id ratio db (some t) =
      (fuzzy_scan (normalize_location t) ratio (resolver_candidates db)
        (none, 0)).1 := by
  simp only [resolve_venue_id]
  rw [if_neg (by
    rintro (rfl | h)
    · exact hb rfl
    · exact hb h)]
  rw [ha, hv]
  simp only [resolver_candidates, fuzzy_scan, List.foldl_append]

/-- C6: the resolver is layered — exact alias match first, then exact
normalised-name match, and the fuzzy scan only when both miss; a fuzzy
candidate is accepted iff the top similarity meets the `0.85` threshold
(an all-below-threshold scan resolves to none, and an accepted answer is a
highest-scoring candidate at or above threshold); blank location text
resolves to none for every store and similarity measure. -/
theorem C6_resolver_layers_and_threshold (ratio : String → String → ℚ)
    (db : DB) :
    (resolve_venue_id ratio db none = none) ∧
    (∀ t, pyStrip t = "" → resolve_venue_id ratio db (some t) = none) ∧
    (∀ t a, db.venue_aliases.find?
        (fun x => x.alias_normalized = normalize_location t) = some a →
      pyStrip t ≠ "" → resolve_venue_id ratio db (some t) = some a.venue_id) ∧
    (∀ t v, db.venue_aliases.find?
        (fun x => x.alias_normalized = normalize_location t) = none →
      db.venues.find?
        (fun x => normalize_location x.name = normalize_location t) = some v →
      pyStrip t ≠ "" → resolve_venue_id ratio db (some t) = some v.id) ∧
    (∀ t, pyStrip t ≠ "" →
      db.venue_aliases.find?
        (fun x => x.alias_normalized = normalize_location t) = none →
      db.venues.find?
        (fun x => normalize_location x.name = normalize_location t) = none →
      ((∀ c ∈ resolver_candidates db,
          ratio (normalize_location t) c.2 < FUZZY_MATCH_THRESHOLD) →
        resolve_venue_id ratio db (some t) = none) ∧
      ((∃ c ∈ resolver_candidates db,
          FUZZY_MATCH_THRESHOLD ≤ ratio (normalize_location t) c.2) →
        ∃ c ∈ resolver_candidates db,
          resolve_venue_id ratio db (some t) = some c.1 ∧
          FUZZY_MATCH_THRESHOLD ≤ ratio (normalize_location t) c.2 ∧
          ∀ d ∈ resolver_candidates db,
            ratio (normalize_location t) d.2 ≤
              ratio (normalize_location t) c.2)) := by
  refine ⟨rfl, ?_, ?_, ?_, ?_⟩
  · intro t ht
    simp only [resolve_venue_id]
    rw [if_pos (Or.inr ht)]
  · intro t a hfind hb
    simp only [resolve_venue_id]
    rw [if_neg (by rintro (rfl | h) <;> [exact hb rfl; exact hb h])]
    rw [hfind]
  · intro t v hanone hfind hb
    simp only [resolve_venue_id]
    rw [if_neg (by rintro (rfl | h) <;> [exact hb rfl; exact hb h])]
    rw [hanone, hfind]
  · intro t hb hanone hvnone
    constructor
    · intro hall
      rw [resolve_fuzzy_eq ratio db t hb hanone hvnone]
      rw [fuzzy_scan_of_all_below _ _ _ hall]
    · intro ⟨c0, hc0, hc0thr⟩
      rw [resolve_fuzzy_eq ratio db t hb hanone hvnone]
      rcases @fuzzy_scan_result (normalize_location t) ratio
          (resolver_candidates db) (none, 0) with heq | ⟨c, hc, heq, hthr⟩
      · exfalso
        have h1 := @fuzzy_scan_ge_of_mem (normalize_location t) ratio
          (resolver_candidates db) (none, 0) c0 hc0 hc0thr
        rw [heq] at h1
        have : (0 : ℚ) < FUZZY_MATCH_THRESHOLD := by norm_num [FUZZY_MATCH_THRESHOLD]
        exact absurd (le_trans hc0thr h1) (not_le.mpr this)
      · refine ⟨c, hc, by rw [heq], hthr, ?_⟩
        intro d hd
        by_cases hdthr :
            FUZZY_MATCH_THRESHOLD ≤ ratio (normalize_location t) d.2
        · have h1 := @fuzzy_scan_ge_of_mem (normalize_location t) ratio
            (resolver_candidates db) (none, 0) d hd hdthr
          rw [heq] at h1
          exact h1
        · exact le_trans (le_of_lt (lt_of_not_le hdthr)) hthr

/-- C6 witness: against the single alias `big top brewing → 7`, a
similarity of exactly `0.85` to the alias resolves to venue 7 and a
similarity of `0.84` resolves to none; blank text resolves to none. -/
theorem C6_witness :
    resolve_venue_id ratio85 db_venue_fix (some "Big Top Brewin") = some 7 ∧
    resolve_venue_id ratio84 db_venue_fix (some "Big Top Brewin") = none ∧
    resolve_venue_id ratio85 db_venue_fix (some "   ") = none := by
  refine ⟨?_, ?_, ?_⟩
  · have h := (C6_resolver_layers_and_threshold ratio85 db_venue_fix).2.2.2.2
      "Big Top Brewin" (by decide) (by decide) (by decide)
    obtain ⟨c, hc, heq, -, -⟩ := h.2
      ⟨(7, "big top brewing"), by decide, by norm_num [ratio85, FUZZY_MATCH_THRESHOLD]⟩
    have hc7 : c = (7, "big top brewing") := by
      have : c ∈ [((7 : Nat), "big top brewing")] := hc
      simpa using this
    rw [heq, hc7]
  · have h := (C6_resolver_layers_and_threshold ratio84 db_venue_fix).2.2.2.2
      "Big Top Brewin" (by decide) (by decide) (by decide)
    exact h.1 fun c _ => by norm_num [ratio84, FUZZY_MATCH_THRESHOLD]
  · exact (C6_resolver_layers_and_threshold ratio85 db_venue_fix).2.1 "   " (by decide)

end SrqHpn
